import Mathlib

/-! The unparser of the cminusminus syntax tree (`p3/ast.hpp`, `p3/unparse.cpp`).

Shallow embedding of the AST node classes and of their `unparse` methods.

* `std::ostream& out` is threaded explicitly: every `unparse` takes the
  contents of the stream so far and returns the contents afterwards, so
  `out << x` becomes `out ++ x`.
* `int indent` is a natural number: the callers only ever pass `0`, the depth
  they were given, or that depth plus one.
* A pointer whose pointee the code dereferences unconditionally is the pointee
  itself; a pointer the code compares with `nullptr` is an `Option`
  (`ReturnStmtNode::expression`, `FnDeclNode::parameters`,
  `CallExpNode::arguments`), `none` being the null pointer. These are the
  trees in which every field has been set.
* `Position * myPos` is never read by `unparse` and is left out.
* In the string literals `\x7b` and `\x7d` are the characters `{` and `}`.
* The `Raw...` types repeat the node classes with every pointer nullable and
  `unparse` failing on a call through a null pointer; they carry the
  statements about absent children and about the constructors. The two fields
  that a constructor leaves without an initialiser, `ReturnStmtNode::expression`
  and `CallExpNode::arguments`, have a third state there, the address of no
  node, and the constructors `new...` say which state each of them produces.
* `DerefNode` and `RefNode` declare `unparse` in `ast.hpp`, but `unparse.cpp`
  gives them no body: they have no rendering and are not part of the model.
-/

namespace cminusminus

/-- The contents written to a `std::ostream` so far. -/
abbrev OStream := String

/-- `doIndent`: the loop `for (k = 0; k < indent; k++) out << "\t"`. -/
def doIndent (out : OStream) : Nat → OStream
  | 0 => out
  | k + 1 => doIndent (out ++ "\t") k

/-- The subclasses of `TypeNode`. -/
inductive TypeNode where
  | IntTypeNode
  | BoolTypeNode
  | VoidTypeNode
  | StringTypeNode
  | ShortTypeNode
  | PtrTypeNode
  deriving DecidableEq

/-- The `unparse` methods of the type nodes; `IntTypeNode::unparse` is the one
that does not call `doIndent`. -/
def TypeNode.unparse : TypeNode → OStream → Nat → OStream
  | .IntTypeNode, out, _ => out ++ "int"
  | .BoolTypeNode, out, indent => doIndent out indent ++ "bool"
  | .VoidTypeNode, out, indent => doIndent out indent ++ "void"
  | .StringTypeNode, out, indent => doIndent out indent ++ "string"
  | .ShortTypeNode, out, indent => doIndent out indent ++ "short"
  | .PtrTypeNode, out, indent => doIndent out indent ++ "ptr"

/-- `IDNode`: an identifier, any `std::string`. -/
structure IDNode where
  name : String
  deriving DecidableEq

/-- `IDNode::unparse`: writes the name and ignores `indent`. -/
def IDNode.unparse (self : IDNode) (out : OStream) (_indent : Nat) : OStream :=
  out ++ self.name

/-- The subclasses of `LValNode` that have an `unparse` body. -/
inductive LValNode where
  | IDNode (id : IDNode)
  | IndexNode (Id_being_accessed : IDNode) (field_Name_being_accessed : IDNode)
  deriving DecidableEq

/-- `IDNode::unparse` and `IndexNode::unparse`, through the `LValNode` pointer. -/
def LValNode.unparse : LValNode → OStream → Nat → OStream
  | .IDNode id, out, indent => id.unparse out indent
  | .IndexNode base field, out, indent =>
    let out := doIndent out indent
    let out := base.unparse out 0
    let out := out ++ "["
    let out := field.unparse out 0
    out ++ "]"

/-- The subclasses of `ExpNode` that have an `unparse` body. `numval` is a C++
`int` and `shortVal` a C++ `short`; `arguments` is `none` for a null list
pointer, which is what the three-argument constructor stores when it is given
one (the two-argument constructor does not set the field: see
`RawExpNode.newCallExpNode`); `LVal` is the use of an `LValNode` as an
`ExpNode` (its base class); `var` is the field `variable`. -/
inductive ExpNode where
  | TrueNode
  | FalseNode
  | StrLitNode (stringVal : String)
  | IntLitNode (numval : Int)
  | ShortLitNode (shortVal : Int)
  | NegNode (expression : ExpNode)
  | NotNode (expression : ExpNode)
  | CallExpNode (nameFunc : IDNode) (arguments : Option (List ExpNode))
  | LVal (lval : LValNode)
  | AndNode (leftNode rightNode : ExpNode)
  | DivideNode (leftNode rightNode : ExpNode)
  | EqualsNode (leftNode rightNode : ExpNode)
  | GreaterEqNode (leftNode rightNode : ExpNode)
  | GreaterNode (leftNode rightNode : ExpNode)
  | LessEqNode (leftNode rightNode : ExpNode)
  | LessNode (leftNode rightNode : ExpNode)
  | MinusNode (leftNode rightNode : ExpNode)
  | NotEqualsNode (leftNode rightNode : ExpNode)
  | OrNode (leftNode rightNode : ExpNode)
  | PlusNode (leftNode rightNode : ExpNode)
  | TimesNode (leftNode rightNode : ExpNode)
  | AssignExpNode (var : LValNode) (expression : ExpNode)

mutual
/-- The `unparse` methods of the expression nodes. -/
def ExpNode.unparse : ExpNode → OStream → Nat → OStream
  | .TrueNode, out, indent => doIndent out indent ++ "true"
  | .FalseNode, out, indent => doIndent out indent ++ "false"
  | .StrLitNode stringVal, out, indent => doIndent out indent ++ stringVal
  | .IntLitNode numval, out, indent => doIndent out indent ++ toString numval
  | .ShortLitNode shortVal, out, indent => doIndent out indent ++ toString shortVal
  | .NegNode _, out, indent => doIndent out indent ++ "neg"
  | .NotNode _, out, indent => doIndent out indent ++ "not"
  | .CallExpNode nameFunc arguments, out, indent =>
    let out := doIndent out indent
    let out := nameFunc.unparse out 0
    let out := out ++ "("
    let out :=
      match arguments with
      | none => out
      | some args => ExpNode.unparseArgs args out
    out ++ ")"
  | .LVal lval, out, indent => lval.unparse out indent
  | .TimesNode leftNode rightNode, out, indent =>
    let out := doIndent out indent
    let out := out ++ "("
    let out := leftNode.unparse out 0
    let out := out ++ " * "
    let out := rightNode.unparse out 0
    out ++ ")"
  | .PlusNode leftNode rightNode, out, indent =>
    let out := doIndent out indent
    let out := out ++ "("
    let out := leftNode.unparse out 0
    let out := out ++ " + "
    let out := rightNode.unparse out 0
    out ++ ")"
  | .OrNode leftNode rightNode, out, indent =>
    let out := doIndent out indent
    let out := out ++ "("
    let out := leftNode.unparse out 0
    let out := out ++ " || "
    let out := rightNode.unparse out 0
    out ++ ")"
  | .NotEqualsNode leftNode rightNode, out, indent =>
    let out := doIndent out indent
    let out := out ++ "("
    let out := leftNode.unparse out 0
    let out := out ++ " != "
    let out := rightNode.unparse out 0
    out ++ ")"
  | .MinusNode leftNode rightNode, out, indent =>
    let out := doIndent out indent
    let out := out ++ "("
    let out := leftNode.unparse out 0
    let out := out ++ " - "
    let out := rightNode.unparse out 0
    out ++ ")"
  | .LessNode leftNode rightNode, out, indent =>
    let out := doIndent out indent
    let out := out ++ "("
    let out := leftNode.unparse out 0
    let out := out ++ " < "
    let out := rightNode.unparse out 0
    out ++ ")"
  | .LessEqNode leftNode rightNode, out, indent =>
    let out := doIndent out indent
    let out := out ++ "("
    let out := leftNode.unparse out 0
    let out := out ++ " <= "
    let out := rightNode.unparse out 0
    out ++ ")"
  | .GreaterNode leftNode rightNode, out, indent =>
    let out := doIndent out indent
    let out := out ++ "("
    let out := leftNode.unparse out 0
    let out := out ++ " > "
    let out := rightNode.unparse out 0
    out ++ ")"
  | .GreaterEqNode leftNode rightNode, out, indent =>
    let out := doIndent out indent
    let out := out ++ "("
    let out := leftNode.unparse out 0
    let out := out ++ " >= "
    let out := rightNode.unparse out 0
    out ++ ")"
  | .EqualsNode leftNode rightNode, out, indent =>
    let out := doIndent out indent
    let out := out ++ "("
    let out := leftNode.unparse out 0
    let out := out ++ " == "
    let out := rightNode.unparse out 0
    out ++ ")"
  | .DivideNode leftNode rightNode, out, indent =>
    let out := doIndent out indent
    let out := out ++ "("
    let out := leftNode.unparse out 0
    let out := out ++ " / "
    let out := rightNode.unparse out 0
    out ++ ")"
  | .AndNode leftNode rightNode, out, indent =>
    let out := doIndent out indent
    let out := out ++ "("
    let out := leftNode.unparse out 0
    let out := out ++ " && "
    let out := rightNode.unparse out 0
    out ++ ")"
  | .AssignExpNode var expression, out, indent =>
    let out := doIndent out indent
    let out := var.unparse out 0
    let out := out ++ " = "
    let out := expression.unparse out 0
    out ++ "; \n"
/-- The loop `for (auto args : *arguments) args->unparse(out, 0)` of
`CallExpNode::unparse`. -/
def ExpNode.unparseArgs : List ExpNode → OStream → OStream
  | [], out => out
  | args :: rest, out => ExpNode.unparseArgs rest (args.unparse out 0)
end

/-- `FormalDeclNode`: a `VarDeclNode` (type and identifier) whose `unparse` is
overridden. -/
structure FormalDeclNode where
  myType : TypeNode
  myId : IDNode
  deriving DecidableEq

/-- `FormalDeclNode::unparse`: like a variable declaration without `";\n"`. -/
def FormalDeclNode.unparse (self : FormalDeclNode) (out : OStream) (indent : Nat) : OStream :=
  let out := doIndent out indent
  let out := self.myType.unparse out 0
  let out := out ++ " "
  self.myId.unparse out 0

/-- The loop over `*parameters` in `FnDeclNode::unparse`; `comma` is the local
variable of that name, `""` before the first parameter and `", "` afterwards. -/
def FormalDeclNode.unparseParams : List FormalDeclNode → OStream → String → OStream
  | [], out, _ => out
  | param :: rest, out, comma =>
    let out := out ++ comma
    let out := param.unparse out 0
    FormalDeclNode.unparseParams rest out ", "

mutual
/-- The subclasses of `DeclNode`. `parameters` is `none` for a null list
pointer (what the four-argument constructor of `FnDeclNode` stores). -/
inductive DeclNode where
  | VarDeclNode (myType : TypeNode) (myId : IDNode)
  | FormalDeclNode (formal : FormalDeclNode)
  | FnDeclNode (myType : TypeNode) (myId : IDNode)
      (parameters : Option (List FormalDeclNode)) (functionBody : List StmtNode)
/-- The subclasses of `StmtNode`. `Decl` is the use of a `DeclNode` as a
`StmtNode` (its base class). `AssignStmtNode` carries the two fields of the
`AssignExpNode` it points to, `CallStmtNode` the two fields of its
`CallExpNode`; `expression` of `ReturnStmtNode` is `none` for a null pointer,
which is what the two-argument constructor stores when it is given one (the
one-argument constructor does not set the field: see
`RawStmtNode.newReturnStmtNode`). -/
inductive StmtNode where
  | Decl (decl : DeclNode)
  | AssignStmtNode (var : LValNode) (expression : ExpNode)
  | PostDecStmtNode (var : LValNode)
  | PostIncStmtNode (var : LValNode)
  | ReadStmtNode (var : LValNode)
  | WriteStmtNode (expression : ExpNode)
  | ReturnStmtNode (expression : Option ExpNode)
  | WhileStmtNode (condition : ExpNode) (WhileBody : List StmtNode)
  | IfStmtNode (condition : ExpNode) (IfBody : List StmtNode)
  | IfElseStmtNode (condition : ExpNode) (IfTrueBody : List StmtNode)
      (IfFalseBody : List StmtNode)
  | CallStmtNode (nameFunc : IDNode) (arguments : Option (List ExpNode))
end

mutual
/-- The `unparse` methods of the declaration nodes. -/
def DeclNode.unparse : DeclNode → OStream → Nat → OStream
  | .VarDeclNode myType myId, out, indent =>
    let out := doIndent out indent
    let out := myType.unparse out 0
    let out := out ++ " "
    let out := myId.unparse out 0
    out ++ ";\n"
  | .FormalDeclNode formal, out, indent => formal.unparse out indent
  | .FnDeclNode myType myId parameters functionBody, out, indent =>
    let out := doIndent out indent
    let out := myType.unparse out 0
    let out := out ++ " "
    let out := myId.unparse out 0
    let out := out ++ "("
    let out :=
      match parameters with
      | none => out
      | some params => FormalDeclNode.unparseParams params out ""
    let out := out ++ ") \x7b\n"
    let out := StmtNode.unparseBody functionBody out (indent + 1)
    out ++ "\n\x7d\n"
/-- The `unparse` methods of the statement nodes. -/
def StmtNode.unparse : StmtNode → OStream → Nat → OStream
  | .Decl decl, out, indent => decl.unparse out indent
  | .AssignStmtNode var expression, out, indent =>
    let out := doIndent out indent
    (ExpNode.AssignExpNode var expression).unparse out 0
  | .PostDecStmtNode var, out, indent =>
    let out := doIndent out indent
    let out := var.unparse out 0
    out ++ "--; \n"
  | .PostIncStmtNode var, out, indent =>
    let out := doIndent out indent
    let out := var.unparse out 0
    out ++ "++; \n"
  | .ReadStmtNode var, out, indent =>
    let out := doIndent out indent
    let out := out ++ "receive "
    let out := var.unparse out 0
    out ++ "; \n"
  | .WriteStmtNode expression, out, indent =>
    let out := doIndent out indent
    let out := out ++ "report "
    let out := expression.unparse out 0
    out ++ "; \n"
  | .ReturnStmtNode expression, out, indent =>
    let out := doIndent out indent
    let out := out ++ "return"
    let out :=
      match expression with
      | none => out
      | some e => e.unparse (out ++ " ") 0
    out ++ "; \n"
  | .WhileStmtNode condition WhileBody, out, indent =>
    let out := doIndent out indent
    let out := out ++ "while "
    let out := condition.unparse out 0
    let out := out ++ " \x7b\n"
    let out := StmtNode.unparseBody WhileBody out (indent + 1)
    out ++ "\n\x7d\n"
  | .IfStmtNode condition IfBody, out, indent =>
    let out := doIndent out indent
    let out := out ++ "if ("
    let out := condition.unparse out 0
    let out := out ++ ") \x7b\n"
    let out := StmtNode.unparseBody IfBody out indent
    out ++ "\n\x7d\n"
  | .IfElseStmtNode condition IfTrueBody IfFalseBody, out, indent =>
    let out := doIndent out indent
    let out := out ++ "if ("
    let out := condition.unparse out 0
    let out := out ++ ") \x7b\n"
    let out := StmtNode.unparseBody IfTrueBody out (indent + 1)
    let out := out ++ "\n\x7d\n else \x7b\n"
    let out := StmtNode.unparseBody IfFalseBody out (indent + 1)
    out ++ "\n\x7d\n"
  | .CallStmtNode nameFunc arguments, out, indent =>
    let out := doIndent out indent
    let out := (ExpNode.CallExpNode nameFunc arguments).unparse out 0
    out ++ ";\n"
/-- The loop `for (auto stmt : *body) stmt->unparse(out, depth)` that the
block-bearing nodes run over their statement lists. -/
def StmtNode.unparseBody : List StmtNode → OStream → Nat → OStream
  | [], out, _ => out
  | stmt :: rest, out, depth => StmtNode.unparseBody rest (stmt.unparse out depth) depth
end

/-- `ProgramNode`: the list of global declarations. -/
structure ProgramNode where
  myGlobals : List DeclNode

/-- The loop `for (auto global : *myGlobals) global->unparse(out, indent)`. -/
def ProgramNode.unparseGlobals : List DeclNode → OStream → Nat → OStream
  | [], out, _ => out
  | global :: rest, out, indent =>
    ProgramNode.unparseGlobals rest (global.unparse out indent) indent

/-- `ProgramNode::unparse`. -/
def ProgramNode.unparse (self : ProgramNode) (out : OStream) (indent : Nat) : OStream :=
  ProgramNode.unparseGlobals self.myGlobals out indent

/-! ## Vocabulary of the properties -/

/-- The text of `d` tab characters. -/
def tabs (d : Nat) : String := ⟨List.replicate d '\t'⟩

/-- The text a type node emits at depth `d`: what `unparse` adds to an empty
stream. -/
def TypeNode.text (t : TypeNode) (d : Nat) : String := t.unparse "" d

/-- The text an lvalue emits at depth `d`. -/
def LValNode.text (v : LValNode) (d : Nat) : String := v.unparse "" d

/-- The text an expression emits at depth `d`; `e.text 0` is its depth-0
rendering. -/
def ExpNode.text (e : ExpNode) (d : Nat) : String := e.unparse "" d

/-- The text a formal parameter emits at depth `d`. -/
def FormalDeclNode.text (f : FormalDeclNode) (d : Nat) : String := f.unparse "" d

/-- The text a declaration emits at depth `d`. -/
def DeclNode.text (x : DeclNode) (d : Nat) : String := x.unparse "" d

/-- The text a statement emits at depth `d`. -/
def StmtNode.text (s : StmtNode) (d : Nat) : String := s.unparse "" d

/-- The text a program emits at depth `d`. -/
def ProgramNode.text (p : ProgramNode) (d : Nat) : String := p.unparse "" d

/-- The keyword of a type. -/
def TypeNode.keyword : TypeNode → String
  | .IntTypeNode => "int"
  | .BoolTypeNode => "bool"
  | .VoidTypeNode => "void"
  | .StringTypeNode => "string"
  | .ShortTypeNode => "short"
  | .PtrTypeNode => "ptr"

/-- The twelve binary operators, by the names the data model gives them. -/
inductive BinaryOp where
  | Add
  | Subtract
  | Multiply
  | Divide
  | And
  | Or
  | Equals
  | NotEquals
  | LessThan
  | LessOrEqual
  | GreaterThan
  | GreaterOrEqual
  deriving DecidableEq

/-- The node class of a binary operator. -/
def BinaryOp.node : BinaryOp → ExpNode → ExpNode → ExpNode
  | .Add => ExpNode.PlusNode
  | .Subtract => ExpNode.MinusNode
  | .Multiply => ExpNode.TimesNode
  | .Divide => ExpNode.DivideNode
  | .And => ExpNode.AndNode
  | .Or => ExpNode.OrNode
  | .Equals => ExpNode.EqualsNode
  | .NotEquals => ExpNode.NotEqualsNode
  | .LessThan => ExpNode.LessNode
  | .LessOrEqual => ExpNode.LessEqNode
  | .GreaterThan => ExpNode.GreaterNode
  | .GreaterOrEqual => ExpNode.GreaterEqNode

/-- The token a binary operator is expected to print. -/
def BinaryOp.token : BinaryOp → String
  | .Add => "+"
  | .Subtract => "-"
  | .Multiply => "*"
  | .Divide => "/"
  | .And => "&&"
  | .Or => "||"
  | .Equals => "=="
  | .NotEquals => "!="
  | .LessThan => "<"
  | .LessOrEqual => "<="
  | .GreaterThan => ">"
  | .GreaterOrEqual => ">="

/-- The formals of a function, each as `<type> <name>`, joined by `", "`; an
absent parameter list counts as an empty one. -/
def paramsText (parameters : Option (List FormalDeclNode)) : String :=
  String.intercalate ", "
    ((parameters.getD []).map fun f => f.myType.keyword ++ " " ++ f.myId.name)

/-- The number of tab characters a text begins with. -/
def leadingTabs (txt : String) : Nat := (txt.data.takeWhile (· == '\t')).length

/-- A text begins with exactly `n` tab characters: it has `n` leading tabs and
a further character after them, which is then not a tab. -/
def BeginsWithExactlyTabs (txt : String) (n : Nat) : Prop :=
  leadingTabs txt = n ∧ n < txt.length

instance (txt : String) (n : Nat) : Decidable (BeginsWithExactlyTabs txt n) :=
  inferInstanceAs (Decidable (_ ∧ _))

/-- A text is not empty and its first character is not a tab. -/
def startsWithNonTab (txt : String) : Bool :=
  match txt.data with
  | [] => false
  | c :: _ => c != '\t'

/-- A name begins with a tab character. -/
def nameBeginsWithTab (name : String) : Bool :=
  match name.data with
  | [] => false
  | c :: _ => c == '\t'

/-- The identifier whose name is the first thing an lvalue prints. -/
def LValNode.firstName : LValNode → String
  | .IDNode id => id.name
  | .IndexNode base _ => base.name

/-- The identifier name a statement prints right after its indentation, for
the statements that open with an identifier rather than a keyword. -/
def StmtNode.firstName : StmtNode → Option String
  | .AssignStmtNode var _ => some var.firstName
  | .PostDecStmtNode var => some var.firstName
  | .PostIncStmtNode var => some var.firstName
  | .CallStmtNode nameFunc _ => some nameFunc.name
  | _ => none

/-- The identifier a statement opens with, if it opens with one, does not
begin with a tab. -/
def StmtNode.firstNameNotTab (s : StmtNode) : Bool :=
  match s.firstName with
  | none => true
  | some name => !nameBeginsWithTab name

/-- A text holds no newline character. -/
def noNewline (txt : String) : Bool := !txt.data.contains '\n'

/-- The program `int main() { int x; x = (3 + 4); report x; return 0; }`. -/
def scenario : ProgramNode :=
  ⟨[.FnDeclNode .IntTypeNode ⟨"main"⟩ none
      [.Decl (.VarDeclNode .IntTypeNode ⟨"x"⟩),
       .AssignStmtNode (.IDNode ⟨"x"⟩) (.PlusNode (.IntLitNode 3) (.IntLitNode 4)),
       .WriteStmtNode (.LVal (.IDNode ⟨"x"⟩)),
       .ReturnStmtNode (some (.IntLitNode 0))]]⟩

/-- The text of a literal node: `true`, `false`, the string verbatim, the
decimal numeral of the stored value; `none` for every other node. -/
def ExpNode.literalText : ExpNode → Option String
  | .TrueNode => some "true"
  | .FalseNode => some "false"
  | .StrLitNode stringVal => some stringVal
  | .IntLitNode numval => some (toString numval)
  | .ShortLitNode shortVal => some (toString shortVal)
  | _ => none

/-- A text ends with the given text. -/
def endsWithText (txt ending : String) : Bool :=
  txt.data.drop (txt.data.length - ending.data.length) == ending.data

/-- A text ends with a newline character whose predecessor exists and is not
a newline. -/
def endsWithSingleNewline (txt : String) : Bool :=
  match txt.data.reverse with
  | last :: before :: _ => last == '\n' && before != '\n'
  | _ => false

/-- A statement is a bare formal parameter declaration, the one declaration
kind that is written without a line end. -/
def StmtNode.isFormalDecl : StmtNode → Bool
  | .Decl (.FormalDeclNode _) => true
  | _ => false

/-- An expression is built only from integer literals and the twelve binary
operators. -/
def ExpNode.isLitBin : ExpNode → Bool
  | .IntLitNode _ => true
  | .AndNode l r => l.isLitBin && r.isLitBin
  | .DivideNode l r => l.isLitBin && r.isLitBin
  | .EqualsNode l r => l.isLitBin && r.isLitBin
  | .GreaterEqNode l r => l.isLitBin && r.isLitBin
  | .GreaterNode l r => l.isLitBin && r.isLitBin
  | .LessEqNode l r => l.isLitBin && r.isLitBin
  | .LessNode l r => l.isLitBin && r.isLitBin
  | .MinusNode l r => l.isLitBin && r.isLitBin
  | .NotEqualsNode l r => l.isLitBin && r.isLitBin
  | .OrNode l r => l.isLitBin && r.isLitBin
  | .PlusNode l r => l.isLitBin && r.isLitBin
  | .TimesNode l r => l.isLitBin && r.isLitBin
  | _ => false

/-- The shape of an expression built only from integer literals and binary
operators. -/
inductive LitBin where
  | lit (n : Int)
  | bin (op : BinaryOp) (l r : LitBin)

/-- The expression of that shape. -/
def LitBin.toExp : LitBin → ExpNode
  | .lit n => .IntLitNode n
  | .bin op l r => op.node l.toExp r.toExp

/-- The characters of the token of a binary operator. -/
def BinaryOp.tokenChars : BinaryOp → List Char
  | .Add => ['+']
  | .Subtract => ['-']
  | .Multiply => ['*']
  | .Divide => ['/']
  | .And => ['&', '&']
  | .Or => ['|', '|']
  | .Equals => ['=', '=']
  | .NotEquals => ['!', '=']
  | .LessThan => ['<']
  | .LessOrEqual => ['<', '=']
  | .GreaterThan => ['>']
  | .GreaterOrEqual => ['>', '=']

/-- The characters the expression of that shape is written as at depth 0. -/
def LitBin.chars : LitBin → List Char
  | .lit n => (toString n).data
  | .bin op l r => '(' :: (l.chars ++ ' ' :: (op.tokenChars ++ ' ' :: (r.chars ++ [')'])))

/-- What stands after a numeral does not continue it: it is empty or begins
with a character that is not a digit. -/
def noDigitAhead : List Char → Bool
  | [] => true
  | c :: _ => !c.isDigit

/-! ## The same nodes with every pointer nullable

The node classes once more, now with every pointer field as an `Option`
(`none` is `nullptr`, also for an element of a list), and `unparse` returning
`none` as soon as it would call a method through a null pointer: that is the
absent-child path. The three pointers `unparse` compares with `nullptr` are
tested as in the source. A binary node carries its class as a `BinaryOp`, and
writes the operator text of that class.

Two of those three pointers, `ReturnStmtNode::expression` and
`CallExpNode::arguments`, have a constructor that gives them no initialiser
(`ast.hpp`, `ReturnStmtNode(Position*)` and `CallExpNode(Position*, IDNode*)`):
such a field holds what its storage held before. It is a `FieldPtr`, which
besides null and the address of a node can be the address of no node, and
`unparse` fails when it goes through that one too. -/

/-- The value of a pointer field that one of the constructors of its class
leaves without an initialiser: null, the address of a node, or `wild`, a value
that is not null and is the address of no node. -/
inductive FieldPtr (α : Type) where
  | null
  | node (pointee : α)
  | wild

/-- The value a constructor stores in such a field when it is given the
pointer as an argument: null or the address of a node. -/
def FieldPtr.ofOption : Option α → FieldPtr α
  | none => .null
  | some pointee => .node pointee

/-- The lvalue classes; an `IDNode` holds its name, an `IndexNode` two
pointers. -/
inductive RawLValNode where
  | IDNode (id : IDNode)
  | IndexNode (Id_being_accessed : Option IDNode) (field_Name_being_accessed : Option IDNode)

/-- `IDNode::unparse` and `IndexNode::unparse` over nullable pointers. -/
def RawLValNode.unparse : RawLValNode → OStream → Nat → Option OStream
  | .IDNode id, out, indent => some (id.unparse out indent)
  | .IndexNode (some base) (some field), out, indent =>
    let out := doIndent out indent
    let out := base.unparse out 0
    let out := out ++ "["
    let out := field.unparse out 0
    some (out ++ "]")
  | .IndexNode _ _, _, _ => none

/-- Both identifiers of an index are present. -/
def RawLValNode.wellFormed : RawLValNode → Bool
  | .IDNode _ => true
  | .IndexNode base field => base.isSome && field.isSome

mutual
/-- The expression classes over nullable pointers. -/
inductive RawExpNode where
  | TrueNode
  | FalseNode
  | StrLitNode (stringVal : String)
  | IntLitNode (numval : Int)
  | ShortLitNode (shortVal : Int)
  | NegNode (expression : Option RawExpNode)
  | NotNode (expression : Option RawExpNode)
  | CallExpNode (call : RawCallExpNode)
  | LVal (lval : RawLValNode)
  | BinaryExpNode (cls : BinaryOp) (leftNode rightNode : Option RawExpNode)
  | AssignExpNode (assign : RawAssignExpNode)
/-- The fields of a `CallExpNode`. `arguments` is set by the three-argument
constructor only; the two-argument one leaves in it what the storage held. -/
inductive RawCallExpNode where
  | mk (nameFunc : Option IDNode) (arguments : FieldPtr (List (Option RawExpNode)))
/-- The fields of an `AssignExpNode`. -/
inductive RawAssignExpNode where
  | mk (var : Option RawLValNode) (expression : Option RawExpNode)
end

mutual
/-- The `unparse` methods of the expression classes over nullable pointers. -/
def RawExpNode.unparse : RawExpNode → OStream → Nat → Option OStream
  | .TrueNode, out, indent => some (doIndent out indent ++ "true")
  | .FalseNode, out, indent => some (doIndent out indent ++ "false")
  | .StrLitNode stringVal, out, indent => some (doIndent out indent ++ stringVal)
  | .IntLitNode numval, out, indent => some (doIndent out indent ++ toString numval)
  | .ShortLitNode shortVal, out, indent => some (doIndent out indent ++ toString shortVal)
  | .NegNode _, out, indent => some (doIndent out indent ++ "neg")
  | .NotNode _, out, indent => some (doIndent out indent ++ "not")
  | .CallExpNode call, out, indent => call.unparse out indent
  | .LVal lval, out, indent => lval.unparse out indent
  | .BinaryExpNode cls (some leftNode) (some rightNode), out, indent => do
    let out := doIndent out indent
    let out := out ++ "("
    let out ← leftNode.unparse out 0
    let out := out ++ (" " ++ cls.token ++ " ")
    let out ← rightNode.unparse out 0
    some (out ++ ")")
  | .BinaryExpNode _ _ _, _, _ => none
  | .AssignExpNode assign, out, indent => assign.unparse out indent
/-- `CallExpNode::unparse` over nullable pointers. A wild `arguments` is not
equal to `nullptr`, so the loop runs over `*arguments`, which is no list. -/
def RawCallExpNode.unparse : RawCallExpNode → OStream → Nat → Option OStream
  | .mk (some nameFunc) arguments, out, indent => do
    let out := doIndent out indent
    let out := nameFunc.unparse out 0
    let out := out ++ "("
    let out ←
      match arguments with
      | .null => some out
      | .node args => RawExpNode.unparseArgs args out
      | .wild => none
    some (out ++ ")")
  | .mk none _, _, _ => none
/-- `AssignExpNode::unparse` over nullable pointers. -/
def RawAssignExpNode.unparse : RawAssignExpNode → OStream → Nat → Option OStream
  | .mk (some var) (some expression), out, indent => do
    let out := doIndent out indent
    let out ← var.unparse out 0
    let out := out ++ " = "
    let out ← expression.unparse out 0
    some (out ++ "; \n")
  | .mk _ _, _, _ => none
/-- The loop over `*arguments` when the elements may be null. -/
def RawExpNode.unparseArgs : List (Option RawExpNode) → OStream → Option OStream
  | [], out => some out
  | none :: _, _ => none
  | some args :: rest, out => do
    let out ← args.unparse out 0
    RawExpNode.unparseArgs rest out
end

mutual
/-- Every required child of the expression is present, all the way down;
only the argument list of a call may be absent, that is null: a wild one is
not well formed. -/
def RawExpNode.wellFormed : RawExpNode → Bool
  | .TrueNode => true
  | .FalseNode => true
  | .StrLitNode _ => true
  | .IntLitNode _ => true
  | .ShortLitNode _ => true
  | .NegNode (some expression) => expression.wellFormed
  | .NegNode none => false
  | .NotNode (some expression) => expression.wellFormed
  | .NotNode none => false
  | .CallExpNode call => call.wellFormed
  | .LVal lval => lval.wellFormed
  | .BinaryExpNode _ (some leftNode) (some rightNode) =>
    leftNode.wellFormed && rightNode.wellFormed
  | .BinaryExpNode _ _ _ => false
  | .AssignExpNode assign => assign.wellFormed
/-- The name of the call is present, the argument list is null or a list, and
every argument in it is present. -/
def RawCallExpNode.wellFormed : RawCallExpNode → Bool
  | .mk (some _) .null => true
  | .mk (some _) (.node args) => RawExpNode.wellFormedArgs args
  | .mk (some _) .wild => false
  | .mk none _ => false
/-- Both sides of the assignment are present. -/
def RawAssignExpNode.wellFormed : RawAssignExpNode → Bool
  | .mk (some var) (some expression) => var.wellFormed && expression.wellFormed
  | .mk _ _ => false
/-- No element of the argument list is null. -/
def RawExpNode.wellFormedArgs : List (Option RawExpNode) → Bool
  | [] => true
  | none :: _ => false
  | some args :: rest => args.wellFormed && RawExpNode.wellFormedArgs rest
end

/-- A formal parameter over nullable pointers. -/
structure RawFormalDeclNode where
  myType : Option TypeNode
  myId : Option IDNode

/-- `FormalDeclNode::unparse` over nullable pointers. -/
def RawFormalDeclNode.unparse : RawFormalDeclNode → OStream → Nat → Option OStream
  | ⟨some myType, some myId⟩, out, indent =>
    let out := doIndent out indent
    let out := myType.unparse out 0
    let out := out ++ " "
    some (myId.unparse out 0)
  | _, _, _ => none

/-- The loop over `*parameters` when the elements may be null. -/
def RawFormalDeclNode.unparseParams :
    List (Option RawFormalDeclNode) → OStream → String → Option OStream
  | [], out, _ => some out
  | none :: _, _, _ => none
  | some param :: rest, out, comma => do
    let out := out ++ comma
    let out ← param.unparse out 0
    RawFormalDeclNode.unparseParams rest out ", "

/-- The type and the identifier of the formal are present. -/
def RawFormalDeclNode.wellFormed (f : RawFormalDeclNode) : Bool :=
  f.myType.isSome && f.myId.isSome

/-- No element of the parameter list is null and every formal is well formed. -/
def RawFormalDeclNode.wellFormedParams : List (Option RawFormalDeclNode) → Bool
  | [] => true
  | none :: _ => false
  | some param :: rest => param.wellFormed && RawFormalDeclNode.wellFormedParams rest

mutual
/-- The declaration classes over nullable pointers. -/
inductive RawDeclNode where
  | VarDeclNode (myType : Option TypeNode) (myId : Option IDNode)
  | FormalDeclNode (formal : RawFormalDeclNode)
  | FnDeclNode (myType : Option TypeNode) (myId : Option IDNode)
      (parameters : Option (List (Option RawFormalDeclNode)))
      (functionBody : Option (List (Option RawStmtNode)))
/-- The statement classes over nullable pointers. `expression` of a
`ReturnStmtNode` is set by the two-argument constructor only; the one-argument
one leaves in it what the storage held. -/
inductive RawStmtNode where
  | Decl (decl : RawDeclNode)
  | AssignStmtNode (assignment : Option RawAssignExpNode)
  | PostDecStmtNode (var : Option RawLValNode)
  | PostIncStmtNode (var : Option RawLValNode)
  | ReadStmtNode (var : Option RawLValNode)
  | WriteStmtNode (expression : Option RawExpNode)
  | ReturnStmtNode (expression : FieldPtr RawExpNode)
  | WhileStmtNode (condition : Option RawExpNode) (WhileBody : Option (List (Option RawStmtNode)))
  | IfStmtNode (condition : Option RawExpNode) (IfBody : Option (List (Option RawStmtNode)))
  | IfElseStmtNode (condition : Option RawExpNode)
      (IfTrueBody : Option (List (Option RawStmtNode)))
      (IfFalseBody : Option (List (Option RawStmtNode)))
  | CallStmtNode (Function : Option RawCallExpNode)
end

mutual
/-- The `unparse` methods of the declaration classes over nullable pointers. -/
def RawDeclNode.unparse : RawDeclNode → OStream → Nat → Option OStream
  | .VarDeclNode (some myType) (some myId), out, indent =>
    let out := doIndent out indent
    let out := myType.unparse out 0
    let out := out ++ " "
    let out := myId.unparse out 0
    some (out ++ ";\n")
  | .VarDeclNode _ _, _, _ => none
  | .FormalDeclNode formal, out, indent => formal.unparse out indent
  | .FnDeclNode (some myType) (some myId) parameters (some functionBody), out, indent => do
    let out := doIndent out indent
    let out := myType.unparse out 0
    let out := out ++ " "
    let out := myId.unparse out 0
    let out := out ++ "("
    let out ←
      match parameters with
      | none => some out
      | some params => RawFormalDeclNode.unparseParams params out ""
    let out := out ++ ") \x7b\n"
    let out ← RawStmtNode.unparseBody functionBody out (indent + 1)
    some (out ++ "\n\x7d\n")
  | .FnDeclNode _ _ _ _, _, _ => none
/-- The `unparse` methods of the statement classes over nullable pointers. -/
def RawStmtNode.unparse : RawStmtNode → OStream → Nat → Option OStream
  | .Decl decl, out, indent => decl.unparse out indent
  | .AssignStmtNode (some assignment), out, indent =>
    let out := doIndent out indent
    assignment.unparse out 0
  | .AssignStmtNode none, _, _ => none
  | .PostDecStmtNode (some var), out, indent => do
    let out := doIndent out indent
    let out ← var.unparse out 0
    some (out ++ "--; \n")
  | .PostDecStmtNode none, _, _ => none
  | .PostIncStmtNode (some var), out, indent => do
    let out := doIndent out indent
    let out ← var.unparse out 0
    some (out ++ "++; \n")
  | .PostIncStmtNode none, _, _ => none
  | .ReadStmtNode (some var), out, indent => do
    let out := doIndent out indent
    let out := out ++ "receive "
    let out ← var.unparse out 0
    some (out ++ "; \n")
  | .ReadStmtNode none, _, _ => none
  | .WriteStmtNode (some expression), out, indent => do
    let out := doIndent out indent
    let out := out ++ "report "
    let out ← expression.unparse out 0
    some (out ++ "; \n")
  | .WriteStmtNode none, _, _ => none
  | .ReturnStmtNode expression, out, indent => do
    let out := doIndent out indent
    let out := out ++ "return"
    let out ←
      match expression with
      | .null => some out
      | .node e => e.unparse (out ++ " ") 0
      | .wild => none
    some (out ++ "; \n")
  | .WhileStmtNode (some condition) (some WhileBody), out, indent => do
    let out := doIndent out indent
    let out := out ++ "while "
    let out ← condition.unparse out 0
    let out := out ++ " \x7b\n"
    let out ← RawStmtNode.unparseBody WhileBody out (indent + 1)
    some (out ++ "\n\x7d\n")
  | .WhileStmtNode _ _, _, _ => none
  | .IfStmtNode (some condition) (some IfBody), out, indent => do
    let out := doIndent out indent
    let out := out ++ "if ("
    let out ← condition.unparse out 0
    let out := out ++ ") \x7b\n"
    let out ← RawStmtNode.unparseBody IfBody out indent
    some (out ++ "\n\x7d\n")
  | .IfStmtNode _ _, _, _ => none
  | .IfElseStmtNode (some condition) (some IfTrueBody) (some IfFalseBody), out, indent => do
    let out := doIndent out indent
    let out := out ++ "if ("
    let out ← condition.unparse out 0
    let out := out ++ ") \x7b\n"
    let out ← RawStmtNode.unparseBody IfTrueBody out (indent + 1)
    let out := out ++ "\n\x7d\n else \x7b\n"
    let out ← RawStmtNode.unparseBody IfFalseBody out (indent + 1)
    some (out ++ "\n\x7d\n")
  | .IfElseStmtNode _ _ _, _, _ => none
  | .CallStmtNode (some call), out, indent => do
    let out := doIndent out indent
    let out ← call.unparse out 0
    some (out ++ ";\n")
  | .CallStmtNode none, _, _ => none
/-- The loop over a statement list when the elements may be null. -/
def RawStmtNode.unparseBody : List (Option RawStmtNode) → OStream → Nat → Option OStream
  | [], out, _ => some out
  | none :: _, _, _ => none
  | some stmt :: rest, out, depth => do
    let out ← stmt.unparse out depth
    RawStmtNode.unparseBody rest out depth
end

mutual
/-- Every required child of the declaration is present, all the way down;
only the parameter list of a function may be absent. -/
def RawDeclNode.wellFormed : RawDeclNode → Bool
  | .VarDeclNode myType myId => myType.isSome && myId.isSome
  | .FormalDeclNode formal => formal.wellFormed
  | .FnDeclNode myType myId none (some functionBody) =>
    myType.isSome && myId.isSome && RawStmtNode.wellFormedBody functionBody
  | .FnDeclNode myType myId (some params) (some functionBody) =>
    myType.isSome && myId.isSome && RawFormalDeclNode.wellFormedParams params
      && RawStmtNode.wellFormedBody functionBody
  | .FnDeclNode _ _ _ none => false
/-- Every required child of the statement is present, all the way down; only
the expression of a return may be absent, that is null: a wild one is not
well formed. -/
def RawStmtNode.wellFormed : RawStmtNode → Bool
  | .Decl decl => decl.wellFormed
  | .AssignStmtNode (some assignment) => assignment.wellFormed
  | .AssignStmtNode none => false
  | .PostDecStmtNode (some var) => var.wellFormed
  | .PostDecStmtNode none => false
  | .PostIncStmtNode (some var) => var.wellFormed
  | .PostIncStmtNode none => false
  | .ReadStmtNode (some var) => var.wellFormed
  | .ReadStmtNode none => false
  | .WriteStmtNode (some expression) => expression.wellFormed
  | .WriteStmtNode none => false
  | .ReturnStmtNode .null => true
  | .ReturnStmtNode (.node expression) => expression.wellFormed
  | .ReturnStmtNode .wild => false
  | .WhileStmtNode (some condition) (some WhileBody) =>
    condition.wellFormed && RawStmtNode.wellFormedBody WhileBody
  | .WhileStmtNode _ _ => false
  | .IfStmtNode (some condition) (some IfBody) =>
    condition.wellFormed && RawStmtNode.wellFormedBody IfBody
  | .IfStmtNode _ _ => false
  | .IfElseStmtNode (some condition) (some IfTrueBody) (some IfFalseBody) =>
    condition.wellFormed && RawStmtNode.wellFormedBody IfTrueBody
      && RawStmtNode.wellFormedBody IfFalseBody
  | .IfElseStmtNode _ _ _ => false
  | .CallStmtNode (some call) => call.wellFormed
  | .CallStmtNode none => false
/-- No element of the statement list is null and every statement is well
formed. -/
def RawStmtNode.wellFormedBody : List (Option RawStmtNode) → Bool
  | [] => true
  | none :: _ => false
  | some stmt :: rest => stmt.wellFormed && RawStmtNode.wellFormedBody rest
end

/-- `ProgramNode` over nullable pointers. -/
structure RawProgramNode where
  myGlobals : Option (List (Option RawDeclNode))

/-- The loop over `*myGlobals` when the elements may be null. -/
def RawProgramNode.unparseGlobals :
    List (Option RawDeclNode) → OStream → Nat → Option OStream
  | [], out, _ => some out
  | none :: _, _, _ => none
  | some global :: rest, out, indent => do
    let out ← global.unparse out indent
    RawProgramNode.unparseGlobals rest out indent

/-- `ProgramNode::unparse` over nullable pointers. -/
def RawProgramNode.unparse : RawProgramNode → OStream → Nat → Option OStream
  | ⟨some globals⟩, out, indent => RawProgramNode.unparseGlobals globals out indent
  | ⟨none⟩, _, _ => none

/-- No global declaration is null and every one is well formed. -/
def RawProgramNode.wellFormedGlobals : List (Option RawDeclNode) → Bool
  | [] => true
  | none :: _ => false
  | some global :: rest => global.wellFormed && RawProgramNode.wellFormedGlobals rest

/-- The list of globals is present and every declaration in it is well
formed. -/
def RawProgramNode.wellFormed : RawProgramNode → Bool
  | ⟨some globals⟩ => RawProgramNode.wellFormedGlobals globals
  | ⟨none⟩ => false

/-- An lvalue as a tree over nullable pointers, none of them null. -/
def LValNode.toRaw : LValNode → RawLValNode
  | .IDNode id => .IDNode id
  | .IndexNode base field => .IndexNode (some base) (some field)

mutual
/-- An expression as a tree over nullable pointers: every pointer set, except
a null argument list, which stays null. -/
def ExpNode.toRaw : ExpNode → RawExpNode
  | .TrueNode => .TrueNode
  | .FalseNode => .FalseNode
  | .StrLitNode stringVal => .StrLitNode stringVal
  | .IntLitNode numval => .IntLitNode numval
  | .ShortLitNode shortVal => .ShortLitNode shortVal
  | .NegNode expression => .NegNode (some expression.toRaw)
  | .NotNode expression => .NotNode (some expression.toRaw)
  | .CallExpNode nameFunc none => .CallExpNode (.mk (some nameFunc) .null)
  | .CallExpNode nameFunc (some args) =>
    .CallExpNode (.mk (some nameFunc) (.node (ExpNode.toRawArgs args)))
  | .LVal lval => .LVal lval.toRaw
  | .AndNode l r => .BinaryExpNode .And (some l.toRaw) (some r.toRaw)
  | .DivideNode l r => .BinaryExpNode .Divide (some l.toRaw) (some r.toRaw)
  | .EqualsNode l r => .BinaryExpNode .Equals (some l.toRaw) (some r.toRaw)
  | .GreaterEqNode l r => .BinaryExpNode .GreaterOrEqual (some l.toRaw) (some r.toRaw)
  | .GreaterNode l r => .BinaryExpNode .GreaterThan (some l.toRaw) (some r.toRaw)
  | .LessEqNode l r => .BinaryExpNode .LessOrEqual (some l.toRaw) (some r.toRaw)
  | .LessNode l r => .BinaryExpNode .LessThan (some l.toRaw) (some r.toRaw)
  | .MinusNode l r => .BinaryExpNode .Subtract (some l.toRaw) (some r.toRaw)
  | .NotEqualsNode l r => .BinaryExpNode .NotEquals (some l.toRaw) (some r.toRaw)
  | .OrNode l r => .BinaryExpNode .Or (some l.toRaw) (some r.toRaw)
  | .PlusNode l r => .BinaryExpNode .Add (some l.toRaw) (some r.toRaw)
  | .TimesNode l r => .BinaryExpNode .Multiply (some l.toRaw) (some r.toRaw)
  | .AssignExpNode var expression =>
    .AssignExpNode (.mk (some var.toRaw) (some expression.toRaw))
/-- An argument list as a list of non-null pointers. -/
def ExpNode.toRawArgs : List ExpNode → List (Option RawExpNode)
  | [] => []
  | args :: rest => some args.toRaw :: ExpNode.toRawArgs rest
end

/-- A formal parameter over nullable pointers, none of them null. -/
def FormalDeclNode.toRaw (f : FormalDeclNode) : RawFormalDeclNode :=
  ⟨some f.myType, some f.myId⟩

/-- A parameter list as a list of non-null pointers. -/
def FormalDeclNode.toRawParams : List FormalDeclNode → List (Option RawFormalDeclNode)
  | [] => []
  | param :: rest => some param.toRaw :: FormalDeclNode.toRawParams rest

mutual
/-- A declaration as a tree over nullable pointers: every pointer set, except
a null parameter list, which stays null. -/
def DeclNode.toRaw : DeclNode → RawDeclNode
  | .VarDeclNode myType myId => .VarDeclNode (some myType) (some myId)
  | .FormalDeclNode formal => .FormalDeclNode formal.toRaw
  | .FnDeclNode myType myId none functionBody =>
    .FnDeclNode (some myType) (some myId) none (some (StmtNode.toRawBody functionBody))
  | .FnDeclNode myType myId (some params) functionBody =>
    .FnDeclNode (some myType) (some myId) (some (FormalDeclNode.toRawParams params))
      (some (StmtNode.toRawBody functionBody))
/-- A statement as a tree over nullable pointers: every pointer set, except a
null return expression, which stays null. -/
def StmtNode.toRaw : StmtNode → RawStmtNode
  | .Decl decl => .Decl decl.toRaw
  | .AssignStmtNode var expression =>
    .AssignStmtNode (some (.mk (some var.toRaw) (some expression.toRaw)))
  | .PostDecStmtNode var => .PostDecStmtNode (some var.toRaw)
  | .PostIncStmtNode var => .PostIncStmtNode (some var.toRaw)
  | .ReadStmtNode var => .ReadStmtNode (some var.toRaw)
  | .WriteStmtNode expression => .WriteStmtNode (some expression.toRaw)
  | .ReturnStmtNode none => .ReturnStmtNode .null
  | .ReturnStmtNode (some expression) => .ReturnStmtNode (.node expression.toRaw)
  | .WhileStmtNode condition WhileBody =>
    .WhileStmtNode (some condition.toRaw) (some (StmtNode.toRawBody WhileBody))
  | .IfStmtNode condition IfBody =>
    .IfStmtNode (some condition.toRaw) (some (StmtNode.toRawBody IfBody))
  | .IfElseStmtNode condition IfTrueBody IfFalseBody =>
    .IfElseStmtNode (some condition.toRaw) (some (StmtNode.toRawBody IfTrueBody))
      (some (StmtNode.toRawBody IfFalseBody))
  | .CallStmtNode nameFunc none => .CallStmtNode (some (.mk (some nameFunc) .null))
  | .CallStmtNode nameFunc (some args) =>
    .CallStmtNode (some (.mk (some nameFunc) (.node (ExpNode.toRawArgs args))))
/-- A statement list as a list of non-null pointers. -/
def StmtNode.toRawBody : List StmtNode → List (Option RawStmtNode)
  | [] => []
  | stmt :: rest => some stmt.toRaw :: StmtNode.toRawBody rest
end

/-- The globals as a list of non-null pointers. -/
def ProgramNode.toRawGlobals : List DeclNode → List (Option RawDeclNode)
  | [] => []
  | global :: rest => some global.toRaw :: ProgramNode.toRawGlobals rest

/-- A program as a tree over nullable pointers. -/
def ProgramNode.toRaw (p : ProgramNode) : RawProgramNode :=
  ⟨some (ProgramNode.toRawGlobals p.myGlobals)⟩

/-- `VarDeclNode(Position * p, TypeNode * type, IDNode * id)`: the constructor
stores the two pointers and runs `assert (myType != nullptr)` and
`assert (myId != nullptr)`; a failed assertion aborts, which is `none`. -/
def RawDeclNode.newVarDeclNode (type : Option TypeNode) (id : Option IDNode) :
    Option RawDeclNode :=
  match type, id with
  | some _, some _ => some (.VarDeclNode type id)
  | _, _ => none

/-- `FormalDeclNode(Position * p, TypeNode * type, IDNode * id)`: the
constructor runs the constructor of its base class `VarDeclNode`, assertions
included, and has an empty body. -/
def RawDeclNode.newFormalDeclNode (type : Option TypeNode) (id : Option IDNode) :
    Option RawDeclNode :=
  match RawDeclNode.newVarDeclNode type id with
  | some _ => some (.FormalDeclNode ⟨type, id⟩)
  | none => none

/-- `FnDeclNode(Position * p, TypeNode * type, IDNode * id, std::list<StmtNode *> *
funcBody)`: the constructor stores the pointers, `parameters` as `nullptr`,
and has an empty body. -/
def RawDeclNode.newFnDeclNode (type : Option TypeNode) (id : Option IDNode)
    (funcBody : Option (List (Option RawStmtNode))) : Option RawDeclNode :=
  some (.FnDeclNode type id none funcBody)

/-- `FnDeclNode(Position * p, TypeNode * type, IDNode * id,
std::list<FormalDeclNode *> * paramIn, std::list<StmtNode *> * funcBody)`: the
constructor stores the pointers and has an empty body. -/
def RawDeclNode.newFnDeclNodeWithParams (type : Option TypeNode) (id : Option IDNode)
    (paramIn : Option (List (Option RawFormalDeclNode)))
    (funcBody : Option (List (Option RawStmtNode))) : Option RawDeclNode :=
  some (.FnDeclNode type id paramIn funcBody)

/-- The value a C++ `short` holds after an `int` is converted to it: the value
modulo `2^16` taken in the range `-32768 .. 32767` (what the compilers do, and
the rule of the language since C++20). -/
def toShort (v : Int) : Int := (v + 32768) % 65536 - 32768

/-- `ShortLitNode(Position * p, int Val)`: the initialiser `shortVal(Val)`
converts the `int` to the `short` field. -/
def ExpNode.newShortLitNode (Val : Int) : ExpNode := .ShortLitNode (toShort Val)

/-- `IntLitNode(Position * p, int Val)`: the initialiser `numval(Val)` stores
the `int` as it is. -/
def ExpNode.newIntLitNode (Val : Int) : ExpNode := .IntLitNode Val

/-- `ReturnStmtNode(Position * p, ExpNode * Expression)`: the initialiser
`expression(Expression)` stores the pointer it is given, null or not. -/
def RawStmtNode.newReturnStmtNodeWithExpression (Expression : Option RawExpNode) :
    RawStmtNode :=
  .ReturnStmtNode (FieldPtr.ofOption Expression)

/-- `ReturnStmtNode(Position * p) : StmtNode(p) {}`: the constructor of a
return without expression. It has no initialiser for `expression` and an empty
body, so the field keeps `residue`, what its storage held before. -/
def RawStmtNode.newReturnStmtNode (residue : FieldPtr RawExpNode) : RawStmtNode :=
  .ReturnStmtNode residue

/-- `CallExpNode(Position * p, IDNode * Name, std::list<ExpNode *> * Arguments)`:
the initialisers `nameFunc(Name)` and `arguments(Arguments)` store the two
pointers as they are given. -/
def RawExpNode.newCallExpNodeWithArguments (Name : Option IDNode)
    (Arguments : Option (List (Option RawExpNode))) : RawExpNode :=
  .CallExpNode (.mk Name (FieldPtr.ofOption Arguments))

/-- `CallExpNode(Position * p, IDNode * Name) : ExpNode(p), nameFunc(Name) { }`:
the constructor of a call without argument list. It stores the name and has
no initialiser for `arguments`, so that field keeps `residue`, what its storage
held before. -/
def RawExpNode.newCallExpNode (Name : Option IDNode)
    (residue : FieldPtr (List (Option RawExpNode))) : RawExpNode :=
  .CallExpNode (.mk Name residue)

/-- The program `int f() { stmt }`: one function without parameter list whose
body is the one statement, every pointer of the function set. -/
def RawProgramNode.functionOf (stmt : RawStmtNode) : RawProgramNode :=
  ⟨some [some (.FnDeclNode (some .IntTypeNode) (some ⟨"f"⟩) none (some [some stmt]))]⟩

/-! ## The stream is only appended to -/

theorem tabs_zero : tabs 0 = "" := rfl

theorem tabs_succ (d : Nat) : tabs (d + 1) = "\t" ++ tabs d := rfl

theorem doIndent_eq (out : OStream) (d : Nat) : doIndent out d = out ++ tabs d := by
  induction d generalizing out with
  | zero => simp [doIndent, tabs_zero]
  | succ k ih => rw [doIndent, ih, tabs_succ, String.append_assoc]

theorem type_unparse_frame (t : TypeNode) (out : OStream) (d : Nat) :
    t.unparse out d = out ++ t.unparse "" d := by
  cases t <;> simp [TypeNode.unparse, doIndent_eq, String.append_assoc]

theorem id_unparse_frame (i : IDNode) (out : OStream) (d : Nat) :
    i.unparse out d = out ++ i.unparse "" d := by
  simp [IDNode.unparse]

theorem lval_unparse_frame (v : LValNode) (out : OStream) (d : Nat) :
    v.unparse out d = out ++ v.unparse "" d := by
  cases v <;> simp [LValNode.unparse, IDNode.unparse, doIndent_eq, String.append_assoc]

mutual
theorem exp_unparse_frame : ∀ (e : ExpNode) (out : OStream) (d : Nat),
    e.unparse out d = out ++ e.unparse "" d
  | .TrueNode, out, d => by simp [ExpNode.unparse, doIndent_eq, String.append_assoc]
  | .FalseNode, out, d => by simp [ExpNode.unparse, doIndent_eq, String.append_assoc]
  | .StrLitNode _, out, d => by simp [ExpNode.unparse, doIndent_eq, String.append_assoc]
  | .IntLitNode _, out, d => by simp [ExpNode.unparse, doIndent_eq, String.append_assoc]
  | .ShortLitNode _, out, d => by simp [ExpNode.unparse, doIndent_eq, String.append_assoc]
  | .NegNode _, out, d => by simp [ExpNode.unparse, doIndent_eq, String.append_assoc]
  | .NotNode _, out, d => by simp [ExpNode.unparse, doIndent_eq, String.append_assoc]
  | .CallExpNode f none, out, d => by
    simp [ExpNode.unparse, IDNode.unparse, doIndent_eq, String.append_assoc]
  | .CallExpNode f (some args), out, d => by
    simp only [ExpNode.unparse]
    rw [exp_unparseArgs_frame args, exp_unparseArgs_frame args (_ ++ "(")]
    simp [IDNode.unparse, doIndent_eq, String.append_assoc]
  | .LVal v, out, d => by
    simp only [ExpNode.unparse]
    exact lval_unparse_frame v out d
  | .AndNode l r, out, d => by
    simp only [ExpNode.unparse]
    rw [exp_unparse_frame r, exp_unparse_frame l,
      exp_unparse_frame r (_ ++ " && "), exp_unparse_frame l (_ ++ "(")]
    simp [doIndent_eq, String.append_assoc]
  | .DivideNode l r, out, d => by
    simp only [ExpNode.unparse]
    rw [exp_unparse_frame r, exp_unparse_frame l,
      exp_unparse_frame r (_ ++ " / "), exp_unparse_frame l (_ ++ "(")]
    simp [doIndent_eq, String.append_assoc]
  | .EqualsNode l r, out, d => by
    simp only [ExpNode.unparse]
    rw [exp_unparse_frame r, exp_unparse_frame l,
      exp_unparse_frame r (_ ++ " == "), exp_unparse_frame l (_ ++ "(")]
    simp [doIndent_eq, String.append_assoc]
  | .GreaterEqNode l r, out, d => by
    simp only [ExpNode.unparse]
    rw [exp_unparse_frame r, exp_unparse_frame l,
      exp_unparse_frame r (_ ++ " >= "), exp_unparse_frame l (_ ++ "(")]
    simp [doIndent_eq, String.append_assoc]
  | .GreaterNode l r, out, d => by
    simp only [ExpNode.unparse]
    rw [exp_unparse_frame r, exp_unparse_frame l,
      exp_unparse_frame r (_ ++ " > "), exp_unparse_frame l (_ ++ "(")]
    simp [doIndent_eq, String.append_assoc]
  | .LessEqNode l r, out, d => by
    simp only [ExpNode.unparse]
    rw [exp_unparse_frame r, exp_unparse_frame l,
      exp_unparse_frame r (_ ++ " <= "), exp_unparse_frame l (_ ++ "(")]
    simp [doIndent_eq, String.append_assoc]
  | .LessNode l r, out, d => by
    simp only [ExpNode.unparse]
    rw [exp_unparse_frame r, exp_unparse_frame l,
      exp_unparse_frame r (_ ++ " < "), exp_unparse_frame l (_ ++ "(")]
    simp [doIndent_eq, String.append_assoc]
  | .MinusNode l r, out, d => by
    simp only [ExpNode.unparse]
    rw [exp_unparse_frame r, exp_unparse_frame l,
      exp_unparse_frame r (_ ++ " - "), exp_unparse_frame l (_ ++ "(")]
    simp [doIndent_eq, String.append_assoc]
  | .NotEqualsNode l r, out, d => by
    simp only [ExpNode.unparse]
    rw [exp_unparse_frame r, exp_unparse_frame l,
      exp_unparse_frame r (_ ++ " != "), exp_unparse_frame l (_ ++ "(")]
    simp [doIndent_eq, String.append_assoc]
  | .OrNode l r, out, d => by
    simp only [ExpNode.unparse]
    rw [exp_unparse_frame r, exp_unparse_frame l,
      exp_unparse_frame r (_ ++ " || "), exp_unparse_frame l (_ ++ "(")]
    simp [doIndent_eq, String.append_assoc]
  | .PlusNode l r, out, d => by
    simp only [ExpNode.unparse]
    rw [exp_unparse_frame r, exp_unparse_frame l,
      exp_unparse_frame r (_ ++ " + "), exp_unparse_frame l (_ ++ "(")]
    simp [doIndent_eq, String.append_assoc]
  | .TimesNode l r, out, d => by
    simp only [ExpNode.unparse]
    rw [exp_unparse_frame r, exp_unparse_frame l,
      exp_unparse_frame r (_ ++ " * "), exp_unparse_frame l (_ ++ "(")]
    simp [doIndent_eq, String.append_assoc]
  | .AssignExpNode v e, out, d => by
    simp only [ExpNode.unparse]
    rw [exp_unparse_frame e, exp_unparse_frame e (_ ++ " = "),
      lval_unparse_frame v, lval_unparse_frame v (doIndent "" d)]
    simp [doIndent_eq, String.append_assoc]
theorem exp_unparseArgs_frame : ∀ (args : List ExpNode) (out : OStream),
    ExpNode.unparseArgs args out = out ++ ExpNode.unparseArgs args ""
  | [], out => by simp [ExpNode.unparseArgs]
  | a :: rest, out => by
    simp only [ExpNode.unparseArgs]
    rw [exp_unparseArgs_frame rest, exp_unparseArgs_frame rest (a.unparse "" 0),
      exp_unparse_frame a, String.append_assoc]
end


theorem formal_unparse_frame (f : FormalDeclNode) (out : OStream) (d : Nat) :
    f.unparse out d = out ++ f.unparse "" d := by
  simp only [FormalDeclNode.unparse, IDNode.unparse]
  rw [type_unparse_frame, type_unparse_frame f.myType (doIndent "" d)]
  simp [doIndent_eq, String.append_assoc]

theorem formal_unparseParams_frame (ps : List FormalDeclNode) (out : OStream)
    (comma : String) :
    FormalDeclNode.unparseParams ps out comma
      = out ++ FormalDeclNode.unparseParams ps "" comma := by
  induction ps generalizing out comma with
  | nil => simp [FormalDeclNode.unparseParams]
  | cons p rest ih =>
    simp only [FormalDeclNode.unparseParams]
    rw [ih, ih (p.unparse _ 0), formal_unparse_frame,
      formal_unparse_frame p ("" ++ comma)]
    simp [String.append_assoc]

mutual
theorem decl_unparse_frame : ∀ (x : DeclNode) (out : OStream) (d : Nat),
    x.unparse out d = out ++ x.unparse "" d
  | .VarDeclNode t i, out, d => by
    simp only [DeclNode.unparse, IDNode.unparse]
    rw [type_unparse_frame, type_unparse_frame t (doIndent "" d)]
    simp [doIndent_eq, String.append_assoc]
  | .FormalDeclNode f, out, d => by
    simp only [DeclNode.unparse]
    exact formal_unparse_frame f out d
  | .FnDeclNode t i none body, out, d => by
    simp only [DeclNode.unparse, IDNode.unparse]
    rw [stmt_unparseBody_frame body, stmt_unparseBody_frame body (_ ++ ") \x7b\n"),
      type_unparse_frame, type_unparse_frame t (doIndent "" d)]
    simp [doIndent_eq, String.append_assoc]
  | .FnDeclNode t i (some ps) body, out, d => by
    simp only [DeclNode.unparse, IDNode.unparse]
    rw [stmt_unparseBody_frame body, stmt_unparseBody_frame body (_ ++ ") \x7b\n"),
      formal_unparseParams_frame, formal_unparseParams_frame ps (_ ++ "("),
      type_unparse_frame, type_unparse_frame t (doIndent "" d)]
    simp [doIndent_eq, String.append_assoc]
theorem stmt_unparse_frame : ∀ (s : StmtNode) (out : OStream) (d : Nat),
    s.unparse out d = out ++ s.unparse "" d
  | .Decl x, out, d => by
    simp only [StmtNode.unparse]
    exact decl_unparse_frame x out d
  | .AssignStmtNode v e, out, d => by
    simp only [StmtNode.unparse]
    rw [exp_unparse_frame, exp_unparse_frame _ (doIndent "" d)]
    simp [doIndent_eq, String.append_assoc]
  | .PostDecStmtNode v, out, d => by
    simp only [StmtNode.unparse]
    rw [lval_unparse_frame, lval_unparse_frame v (doIndent "" d)]
    simp [doIndent_eq, String.append_assoc]
  | .PostIncStmtNode v, out, d => by
    simp only [StmtNode.unparse]
    rw [lval_unparse_frame, lval_unparse_frame v (doIndent "" d)]
    simp [doIndent_eq, String.append_assoc]
  | .ReadStmtNode v, out, d => by
    simp only [StmtNode.unparse]
    rw [lval_unparse_frame, lval_unparse_frame v (_ ++ "receive ")]
    simp [doIndent_eq, String.append_assoc]
  | .WriteStmtNode e, out, d => by
    simp only [StmtNode.unparse]
    rw [exp_unparse_frame, exp_unparse_frame e (_ ++ "report ")]
    simp [doIndent_eq, String.append_assoc]
  | .ReturnStmtNode none, out, d => by
    simp [StmtNode.unparse, doIndent_eq, String.append_assoc]
  | .ReturnStmtNode (some e), out, d => by
    simp only [StmtNode.unparse]
    rw [exp_unparse_frame, exp_unparse_frame e (_ ++ " ")]
    simp [doIndent_eq, String.append_assoc]
  | .WhileStmtNode c body, out, d => by
    simp only [StmtNode.unparse]
    rw [stmt_unparseBody_frame body, stmt_unparseBody_frame body (_ ++ " \x7b\n"),
      exp_unparse_frame, exp_unparse_frame c (_ ++ "while ")]
    simp [doIndent_eq, String.append_assoc]
  | .IfStmtNode c body, out, d => by
    simp only [StmtNode.unparse]
    rw [stmt_unparseBody_frame body, stmt_unparseBody_frame body (_ ++ ") \x7b\n"),
      exp_unparse_frame, exp_unparse_frame c (_ ++ "if (")]
    simp [doIndent_eq, String.append_assoc]
  | .IfElseStmtNode c tb fb, out, d => by
    simp only [StmtNode.unparse]
    rw [stmt_unparseBody_frame fb, stmt_unparseBody_frame tb,
      stmt_unparseBody_frame fb (_ ++ "\n\x7d\n else \x7b\n"),
      stmt_unparseBody_frame tb (_ ++ ") \x7b\n"),
      exp_unparse_frame, exp_unparse_frame c (_ ++ "if (")]
    simp [doIndent_eq, String.append_assoc]
  | .CallStmtNode f args, out, d => by
    simp only [StmtNode.unparse]
    rw [exp_unparse_frame, exp_unparse_frame _ (doIndent "" d)]
    simp [doIndent_eq, String.append_assoc]
theorem stmt_unparseBody_frame : ∀ (body : List StmtNode) (out : OStream) (d : Nat),
    StmtNode.unparseBody body out d = out ++ StmtNode.unparseBody body "" d
  | [], out, d => by simp [StmtNode.unparseBody]
  | s :: rest, out, d => by
    simp only [StmtNode.unparseBody]
    rw [stmt_unparseBody_frame rest, stmt_unparseBody_frame rest (s.unparse "" d),
      stmt_unparse_frame s, String.append_assoc]
end

/-! ## Loops as joins -/

theorem join_cons (a : String) (l : List String) : String.join (a :: l) = a ++ String.join l := by
  apply String.ext
  simp [String.data_join]

theorem join_append (l₁ l₂ : List String) :
    String.join (l₁ ++ l₂) = String.join l₁ ++ String.join l₂ := by
  apply String.ext
  simp [String.data_join]

theorem stmt_unparseBody_eq (body : List StmtNode) (out : OStream) (d : Nat) :
    StmtNode.unparseBody body out d = out ++ String.join (body.map fun s => s.text d) := by
  induction body generalizing out with
  | nil => simp [StmtNode.unparseBody, String.join]
  | cons s rest ih =>
    rw [StmtNode.unparseBody, ih, stmt_unparse_frame, List.map_cons, join_cons,
      String.append_assoc]
    rfl

theorem exp_unparseArgs_eq (args : List ExpNode) (out : OStream) :
    ExpNode.unparseArgs args out = out ++ String.join (args.map fun a => a.text 0) := by
  induction args generalizing out with
  | nil => simp [ExpNode.unparseArgs, String.join]
  | cons a rest ih =>
    rw [ExpNode.unparseArgs, ih, exp_unparse_frame, List.map_cons, join_cons,
      String.append_assoc]
    rfl

theorem type_text_zero (t : TypeNode) : t.text 0 = t.keyword := by
  cases t <;> rfl

theorem type_unparse_zero (t : TypeNode) (out : OStream) :
    t.unparse out 0 = out ++ t.keyword := by
  rw [type_unparse_frame, ← type_text_zero]; rfl

theorem formal_unparse_eq (f : FormalDeclNode) (out : OStream) (d : Nat) :
    f.unparse out d = out ++ (tabs d ++ (f.myType.keyword ++ (" " ++ f.myId.name))) := by
  simp [FormalDeclNode.unparse, IDNode.unparse, type_unparse_zero, doIndent_eq,
    String.append_assoc]

theorem intercalate_go_eq (acc sep : String) (l : List String) :
    String.intercalate.go acc sep l = acc ++ String.join (l.map fun a => sep ++ a) := by
  induction l generalizing acc with
  | nil => simp [String.intercalate.go, String.join]
  | cons a rest ih =>
    rw [String.intercalate.go, ih, List.map_cons, join_cons]
    simp [String.append_assoc]

theorem formal_unparseParams_comma (ps : List FormalDeclNode) (out : OStream) :
    FormalDeclNode.unparseParams ps out ", "
      = out ++ String.join (ps.map fun f => ", " ++ f.text 0) := by
  induction ps generalizing out with
  | nil => simp [FormalDeclNode.unparseParams, String.join]
  | cons p rest ih =>
    rw [FormalDeclNode.unparseParams]
    rw [ih, formal_unparse_frame, List.map_cons, join_cons]
    simp [String.append_assoc, FormalDeclNode.text]

theorem formal_unparseParams_eq (ps : List FormalDeclNode) (out : OStream) :
    FormalDeclNode.unparseParams ps out ""
      = out ++ String.intercalate ", " (ps.map fun f => f.text 0) := by
  cases ps with
  | nil => simp [FormalDeclNode.unparseParams, String.intercalate]
  | cons p rest =>
    rw [FormalDeclNode.unparseParams]
    rw [formal_unparseParams_comma, formal_unparse_frame, List.map_cons,
      String.intercalate, intercalate_go_eq]
    simp [String.append_assoc, FormalDeclNode.text, Function.comp_def]

/-! ## What each node writes -/

theorem lval_unparse_zero (v : LValNode) (out : OStream) :
    v.unparse out 0 = out ++ v.text 0 := by
  rw [lval_unparse_frame]; rfl

theorem exp_unparse_zero (e : ExpNode) (out : OStream) :
    e.unparse out 0 = out ++ e.text 0 := by
  rw [exp_unparse_frame]; rfl

theorem callExp_unparse (f : IDNode) (args : Option (List ExpNode)) (out : OStream)
    (d : Nat) :
    (ExpNode.CallExpNode f args).unparse out d
      = out ++ (tabs d ++ (f.name ++ ("(" ++
          (String.join ((args.getD []).map fun a => a.text 0) ++ ")")))) := by
  cases args with
  | none => simp [ExpNode.unparse, IDNode.unparse, doIndent_eq, String.append_assoc, String.join]
  | some l =>
    simp [ExpNode.unparse, IDNode.unparse, doIndent_eq, String.append_assoc,
      exp_unparseArgs_eq]

theorem assignExp_unparse (v : LValNode) (e : ExpNode) (out : OStream) (d : Nat) :
    (ExpNode.AssignExpNode v e).unparse out d
      = out ++ (tabs d ++ (v.text 0 ++ (" = " ++ (e.text 0 ++ "; \n")))) := by
  simp [ExpNode.unparse, lval_unparse_zero, exp_unparse_zero, doIndent_eq,
    String.append_assoc]

theorem varDecl_unparse (t : TypeNode) (i : IDNode) (out : OStream) (d : Nat) :
    (DeclNode.VarDeclNode t i).unparse out d
      = out ++ (tabs d ++ (t.keyword ++ (" " ++ (i.name ++ ";\n")))) := by
  simp [DeclNode.unparse, IDNode.unparse, type_unparse_zero, doIndent_eq,
    String.append_assoc]

theorem paramsText_eq (ps : Option (List FormalDeclNode)) :
    paramsText ps = String.intercalate ", " ((ps.getD []).map fun f => f.text 0) := by
  unfold paramsText
  congr 1
  apply List.map_congr_left
  intro f _
  simp [FormalDeclNode.text, formal_unparse_eq, tabs_zero, String.append_assoc]

theorem fnDecl_unparse (t : TypeNode) (i : IDNode)
    (ps : Option (List FormalDeclNode)) (body : List StmtNode) (out : OStream) (d : Nat) :
    (DeclNode.FnDeclNode t i ps body).unparse out d
      = out ++ (tabs d ++ (t.keyword ++ (" " ++ (i.name ++ ("(" ++ (paramsText ps ++
          (") \x7b\n" ++ (String.join (body.map fun s => s.text (d + 1)) ++ "\n\x7d\n")))))))) := by
  rw [paramsText_eq]
  cases ps with
  | none =>
    simp [DeclNode.unparse, IDNode.unparse, type_unparse_zero, doIndent_eq,
      String.append_assoc, stmt_unparseBody_eq, String.intercalate]
    rw [← String.append_assoc "(" ") \x7b\n"]
    rfl
  | some l =>
    simp [DeclNode.unparse, IDNode.unparse, type_unparse_zero, doIndent_eq,
      String.append_assoc, stmt_unparseBody_eq, formal_unparseParams_eq]

theorem whileStmt_unparse (c : ExpNode) (body : List StmtNode) (out : OStream) (d : Nat) :
    (StmtNode.WhileStmtNode c body).unparse out d
      = out ++ (tabs d ++ ("while " ++ (c.text 0 ++ (" \x7b\n" ++
          (String.join (body.map fun s => s.text (d + 1)) ++ "\n\x7d\n"))))) := by
  simp [StmtNode.unparse, exp_unparse_zero, doIndent_eq, String.append_assoc,
    stmt_unparseBody_eq]

theorem ifStmt_unparse (c : ExpNode) (body : List StmtNode) (out : OStream) (d : Nat) :
    (StmtNode.IfStmtNode c body).unparse out d
      = out ++ (tabs d ++ ("if (" ++ (c.text 0 ++ (") \x7b\n" ++
          (String.join (body.map fun s => s.text d) ++ "\n\x7d\n"))))) := by
  simp [StmtNode.unparse, exp_unparse_zero, doIndent_eq, String.append_assoc,
    stmt_unparseBody_eq]

theorem ifElseStmt_unparse (c : ExpNode) (tb fb : List StmtNode) (out : OStream)
    (d : Nat) :
    (StmtNode.IfElseStmtNode c tb fb).unparse out d
      = out ++ (tabs d ++ ("if (" ++ (c.text 0 ++ (") \x7b\n" ++
          (String.join (tb.map fun s => s.text (d + 1)) ++ ("\n\x7d\n else \x7b\n" ++
            (String.join (fb.map fun s => s.text (d + 1)) ++ "\n\x7d\n"))))))) := by
  simp [StmtNode.unparse, exp_unparse_zero, doIndent_eq, String.append_assoc,
    stmt_unparseBody_eq]

theorem writeStmt_unparse (e : ExpNode) (out : OStream) (d : Nat) :
    (StmtNode.WriteStmtNode e).unparse out d
      = out ++ (tabs d ++ ("report " ++ (e.text 0 ++ "; \n"))) := by
  simp [StmtNode.unparse, exp_unparse_zero, doIndent_eq, String.append_assoc]

theorem readStmt_unparse (v : LValNode) (out : OStream) (d : Nat) :
    (StmtNode.ReadStmtNode v).unparse out d
      = out ++ (tabs d ++ ("receive " ++ (v.text 0 ++ "; \n"))) := by
  simp [StmtNode.unparse, lval_unparse_zero, doIndent_eq, String.append_assoc]

theorem returnStmt_unparse (e : Option ExpNode) (out : OStream) (d : Nat) :
    (StmtNode.ReturnStmtNode e).unparse out d
      = out ++ (tabs d ++ ("return" ++
          ((match e with | none => "" | some x => " " ++ x.text 0) ++ "; \n"))) := by
  cases e with
  | none => simp [StmtNode.unparse, doIndent_eq, String.append_assoc]
  | some x =>
    simp [StmtNode.unparse, exp_unparse_zero, doIndent_eq, String.append_assoc]
    rw [← String.append_assoc "return" " "]
    rfl

theorem postDecStmt_unparse (v : LValNode) (out : OStream) (d : Nat) :
    (StmtNode.PostDecStmtNode v).unparse out d
      = out ++ (tabs d ++ (v.text 0 ++ "--; \n")) := by
  simp [StmtNode.unparse, lval_unparse_zero, doIndent_eq, String.append_assoc]

theorem postIncStmt_unparse (v : LValNode) (out : OStream) (d : Nat) :
    (StmtNode.PostIncStmtNode v).unparse out d
      = out ++ (tabs d ++ (v.text 0 ++ "++; \n")) := by
  simp [StmtNode.unparse, lval_unparse_zero, doIndent_eq, String.append_assoc]

theorem assignStmt_unparse (v : LValNode) (e : ExpNode) (out : OStream) (d : Nat) :
    (StmtNode.AssignStmtNode v e).unparse out d
      = out ++ (tabs d ++ (v.text 0 ++ (" = " ++ (e.text 0 ++ "; \n")))) := by
  simp [StmtNode.unparse, assignExp_unparse, doIndent_eq, String.append_assoc, tabs_zero]

theorem callStmt_unparse (f : IDNode) (args : Option (List ExpNode)) (out : OStream)
    (d : Nat) :
    (StmtNode.CallStmtNode f args).unparse out d
      = out ++ (tabs d ++ (f.name ++ ("(" ++
          (String.join ((args.getD []).map fun a => a.text 0) ++ (")" ++ ";\n"))))) := by
  simp [StmtNode.unparse, callExp_unparse, doIndent_eq, String.append_assoc, tabs_zero]

/-! ## Leading tabs -/

theorem takeWhile_tabs (n : Nat) (c : Char) (r : List Char) (hc : c ≠ '\t') :
    (List.replicate n '\t' ++ c :: r).takeWhile (· == '\t') = List.replicate n '\t' := by
  induction n with
  | zero =>
    have h : (c == '\t') = false := by simpa using hc
    simp [List.takeWhile, h]
  | succ k ih => simp [List.replicate_succ, List.takeWhile, ih]

theorem beginsWith_tabs_append (n : Nat) (rest : String) (h : startsWithNonTab rest = true) :
    BeginsWithExactlyTabs (tabs n ++ rest) n := by
  unfold startsWithNonTab at h
  unfold BeginsWithExactlyTabs leadingTabs
  cases hr : rest.data with
  | nil => simp [hr] at h
  | cons c r =>
    simp only [hr, bne_iff_ne, ne_eq] at h
    constructor
    · rw [String.data_append, hr]
      show ((List.replicate n '\t' ++ c :: r).takeWhile (· == '\t')).length = n
      rw [takeWhile_tabs n c r h, List.length_replicate]
    · rw [String.length_append]
      have h1 : (tabs n).length = n := by simp [tabs, String.length]
      have h2 : rest.length = r.length + 1 := by simp [String.length, hr]
      omega

theorem startsWithNonTab_append (a b : String) (h : startsWithNonTab a = true) :
    startsWithNonTab (a ++ b) = true := by
  unfold startsWithNonTab at *
  rw [String.data_append]
  cases ha : a.data with
  | nil => simp [ha] at h
  | cons c r => simpa [ha] using h

theorem startsWithNonTab_name_append (name b : String) (hn : nameBeginsWithTab name = false)
    (hb : startsWithNonTab b = true) : startsWithNonTab (name ++ b) = true := by
  unfold startsWithNonTab nameBeginsWithTab at *
  rw [String.data_append]
  cases ha : name.data with
  | nil => simpa [ha] using hb
  | cons c r => simpa [ha] using hn

theorem keyword_startsWithNonTab (t : TypeNode) : startsWithNonTab t.keyword = true := by
  cases t <;> rfl

theorem lval_text_startsWithNonTab (v : LValNode) (rest : String)
    (hn : nameBeginsWithTab v.firstName = false) (hr : startsWithNonTab rest = true) :
    startsWithNonTab (v.text 0 ++ rest) = true := by
  cases v with
  | IDNode i =>
    exact startsWithNonTab_name_append i.name rest hn hr
  | IndexNode base field =>
    have h : (LValNode.IndexNode base field).text 0 ++ rest
        = base.name ++ ("[" ++ (field.name ++ ("]" ++ rest))) := by
      simp [LValNode.text, LValNode.unparse, IDNode.unparse, doIndent, String.append_assoc]
    rw [h]
    exact startsWithNonTab_name_append base.name _ hn (startsWithNonTab_append "[" _ rfl)

theorem stmt_text_beginsWith (s : StmtNode) (n : Nat) (h : s.firstNameNotTab = true) :
    BeginsWithExactlyTabs (s.text n) n := by
  cases s with
  | Decl x =>
    cases x with
    | VarDeclNode t i =>
      have e := varDecl_unparse t i "" n
      simp only [StmtNode.text, StmtNode.unparse, e, String.empty_append]
      exact beginsWith_tabs_append n _ (startsWithNonTab_append _ _ (keyword_startsWithNonTab t))
    | FormalDeclNode f =>
      have e := formal_unparse_eq f "" n
      simp only [StmtNode.text, StmtNode.unparse, DeclNode.unparse, e, String.empty_append]
      exact beginsWith_tabs_append n _
        (startsWithNonTab_append _ _ (keyword_startsWithNonTab f.myType))
    | FnDeclNode t i ps body =>
      have e := fnDecl_unparse t i ps body "" n
      simp only [StmtNode.text, StmtNode.unparse, e, String.empty_append]
      exact beginsWith_tabs_append n _ (startsWithNonTab_append _ _ (keyword_startsWithNonTab t))
  | AssignStmtNode v e =>
    have e1 := assignStmt_unparse v e "" n
    simp only [StmtNode.text, e1, String.empty_append]
    have hn : nameBeginsWithTab v.firstName = false := by
      simpa [StmtNode.firstNameNotTab, StmtNode.firstName] using h
    exact beginsWith_tabs_append n _
      (lval_text_startsWithNonTab v _ hn (startsWithNonTab_append " = " _ rfl))
  | PostDecStmtNode v =>
    have e1 := postDecStmt_unparse v "" n
    simp only [StmtNode.text, e1, String.empty_append]
    have hn : nameBeginsWithTab v.firstName = false := by
      simpa [StmtNode.firstNameNotTab, StmtNode.firstName] using h
    exact beginsWith_tabs_append n _ (lval_text_startsWithNonTab v _ hn rfl)
  | PostIncStmtNode v =>
    have e1 := postIncStmt_unparse v "" n
    simp only [StmtNode.text, e1, String.empty_append]
    have hn : nameBeginsWithTab v.firstName = false := by
      simpa [StmtNode.firstNameNotTab, StmtNode.firstName] using h
    exact beginsWith_tabs_append n _ (lval_text_startsWithNonTab v _ hn rfl)
  | ReadStmtNode v =>
    have e1 := readStmt_unparse v "" n
    simp only [StmtNode.text, e1, String.empty_append]
    exact beginsWith_tabs_append n _ (startsWithNonTab_append "receive " _ rfl)
  | WriteStmtNode e =>
    have e1 := writeStmt_unparse e "" n
    simp only [StmtNode.text, e1, String.empty_append]
    exact beginsWith_tabs_append n _ (startsWithNonTab_append "report " _ rfl)
  | ReturnStmtNode e =>
    have e1 := returnStmt_unparse e "" n
    simp only [StmtNode.text, e1, String.empty_append]
    exact beginsWith_tabs_append n _ (startsWithNonTab_append "return" _ rfl)
  | WhileStmtNode c body =>
    have e1 := whileStmt_unparse c body "" n
    simp only [StmtNode.text, e1, String.empty_append]
    exact beginsWith_tabs_append n _ (startsWithNonTab_append "while " _ rfl)
  | IfStmtNode c body =>
    have e1 := ifStmt_unparse c body "" n
    simp only [StmtNode.text, e1, String.empty_append]
    exact beginsWith_tabs_append n _ (startsWithNonTab_append "if (" _ rfl)
  | IfElseStmtNode c tb fb =>
    have e1 := ifElseStmt_unparse c tb fb "" n
    simp only [StmtNode.text, e1, String.empty_append]
    exact beginsWith_tabs_append n _ (startsWithNonTab_append "if (" _ rfl)
  | CallStmtNode f args =>
    have e1 := callStmt_unparse f args "" n
    simp only [StmtNode.text, e1, String.empty_append]
    have hn : nameBeginsWithTab f.name = false := by
      simpa [StmtNode.firstNameNotTab, StmtNode.firstName] using h
    exact beginsWith_tabs_append n _
      (startsWithNonTab_name_append f.name _ hn (startsWithNonTab_append "(" _ rfl))

theorem intercalate_cons_cons (sep a b : String) (l : List String) :
    String.intercalate sep (a :: b :: l) = a ++ sep ++ String.intercalate sep (b :: l) := by
  simp only [String.intercalate, intercalate_go_eq, List.map_cons, join_cons,
    String.append_assoc]

theorem noNewline_append (a b : String) :
    noNewline (a ++ b) = (noNewline a && noNewline b) := by
  simp [noNewline, String.data_append, List.contains_eq_any_beq, Bool.not_or]

theorem noNewline_tabs (d : Nat) : noNewline (tabs d) = true := by
  simp only [noNewline, tabs, Bool.not_eq_true', List.contains_eq_any_beq]
  rw [Bool.eq_false_iff]
  intro h
  rw [List.any_eq_true] at h
  obtain ⟨c, hc, hcn⟩ := h
  rw [List.eq_of_mem_replicate hc] at hcn
  exact absurd hcn (by decide)

theorem unparseGlobals_eq (xs : List DeclNode) (out : OStream) (d : Nat) :
    ProgramNode.unparseGlobals xs out d = out ++ String.join (xs.map fun x => x.text d) := by
  induction xs generalizing out with
  | nil => simp [ProgramNode.unparseGlobals, String.join]
  | cons x rest ih =>
    rw [ProgramNode.unparseGlobals, ih, decl_unparse_frame, List.map_cons, join_cons,
      String.append_assoc]
    rfl

/-! ## The claims -/

/-- C1: a binary operator node of any of the twelve kinds, with any operands
`l` and `r` and at any depth `d`, writes `d` tabs and then `(`, the depth-0
text of `l`, the operator token with one space on each side, the depth-0 text
of `r` and `)`. The operands are arbitrary, so the parentheses are there at
every nesting position. -/
theorem binary_unparse_fully_parenthesized (op : BinaryOp) (l r : ExpNode) (d : Nat)
    (out : OStream) :
    (op.node l r).unparse out d
      = out ++ tabs d ++ ("(" ++ l.text 0 ++ (" " ++ op.token ++ " ") ++ r.text 0 ++ ")") := by
  cases op <;>
    simp [BinaryOp.node, BinaryOp.token, ExpNode.unparse, exp_unparse_zero, doIndent_eq,
      String.append_assoc]

/-- C2: a function declaration at depth `d` writes `d` tabs, the keyword of
its type, a space, its name, `(`, its formals each as `<type> <name>` and
joined by `", "` (nothing for an absent or an empty parameter list, no
separator before the first or after the last formal), `) {` and a newline,
its body statements in list order at depth `d + 1`, and the closing-brace
line, which is written as a newline, `}` and a newline. -/
theorem fnDecl_unparse_layout (t : TypeNode) (n : IDNode) (f g : FormalDeclNode)
    (fs : List FormalDeclNode) (ps : Option (List FormalDeclNode)) (body : List StmtNode)
    (d : Nat) (out : OStream) :
    (DeclNode.FnDeclNode t n ps body).unparse out d
        = out ++ tabs d ++ t.keyword ++ " " ++ n.name ++ "(" ++ paramsText ps ++ ") \x7b" ++ "\n"
            ++ String.join (body.map fun s => s.text (d + 1)) ++ ("\n" ++ "\x7d" ++ "\n")
      ∧ paramsText none = ""
      ∧ paramsText (some []) = ""
      ∧ paramsText (some [f]) = f.myType.keyword ++ " " ++ f.myId.name
      ∧ paramsText (some (f :: g :: fs))
          = f.myType.keyword ++ " " ++ f.myId.name ++ ", " ++ paramsText (some (g :: fs)) := by
  refine ⟨?_, rfl, rfl, ?_, ?_⟩
  · rw [fnDecl_unparse]
    simp only [String.append_assoc]
    rfl
  · simp [paramsText, String.intercalate, String.intercalate.go]
  · simp [paramsText, intercalate_cons_cons, String.append_assoc]

/-- C3: a function declaration, a while statement and an if/else statement at
depth `d` write their body statements (for if/else: those of both branches) at
depth `d + 1`, and the text of a statement `s` written at depth `d + 1` begins
with exactly `d + 1` tabs, the character after them not being a tab, provided
the identifier `s` opens with (if it opens with one) does not begin with a
tab. -/
theorem block_body_indented_one_deeper (d : Nat) (t : TypeNode) (n : IDNode)
    (ps : Option (List FormalDeclNode)) (c : ExpNode) (body elseBody : List StmtNode)
    (out : OStream) (s : StmtNode) (hname : s.firstNameNotTab = true) :
    (DeclNode.FnDeclNode t n ps body).unparse out d
        = out ++ tabs d ++ t.keyword ++ " " ++ n.name ++ "(" ++ paramsText ps ++ ") \x7b\n"
            ++ String.join (body.map fun s => s.text (d + 1)) ++ "\n\x7d\n"
      ∧ (StmtNode.WhileStmtNode c body).unparse out d
        = out ++ tabs d ++ "while " ++ c.text 0 ++ " \x7b\n"
            ++ String.join (body.map fun s => s.text (d + 1)) ++ "\n\x7d\n"
      ∧ (StmtNode.IfElseStmtNode c body elseBody).unparse out d
        = out ++ tabs d ++ "if (" ++ c.text 0 ++ ") \x7b\n"
            ++ String.join (body.map fun s => s.text (d + 1)) ++ "\n\x7d\n else \x7b\n"
            ++ String.join (elseBody.map fun s => s.text (d + 1)) ++ "\n\x7d\n"
      ∧ BeginsWithExactlyTabs (s.text (d + 1)) (d + 1) := by
  refine ⟨?_, ?_, ?_, stmt_text_beginsWith s (d + 1) hname⟩
  · rw [fnDecl_unparse]; simp only [String.append_assoc]
  · rw [whileStmt_unparse]; simp only [String.append_assoc]
  · rw [ifElseStmt_unparse]; simp only [String.append_assoc]

/-- Witness of C3: a while loop whose body is `x++;` at depth 1. -/
theorem block_body_indented_one_deeper_witness :
    (StmtNode.PostIncStmtNode (.IDNode ⟨"x"⟩)).firstNameNotTab = true
      ∧ (StmtNode.WhileStmtNode .TrueNode [.PostIncStmtNode (.IDNode ⟨"x"⟩)]).unparse "" 1
        = "" ++ tabs 1 ++ "while " ++ ExpNode.TrueNode.text 0 ++ " \x7b\n"
            ++ String.join ([StmtNode.PostIncStmtNode (.IDNode ⟨"x"⟩)].map fun s => s.text (1 + 1))
            ++ "\n\x7d\n"
      ∧ BeginsWithExactlyTabs ((StmtNode.PostIncStmtNode (.IDNode ⟨"x"⟩)).text (1 + 1)) (1 + 1) :=
  ⟨by decide,
    (block_body_indented_one_deeper 1 .IntTypeNode ⟨"f"⟩ none .TrueNode
      [.PostIncStmtNode (.IDNode ⟨"x"⟩)] [] "" (.PostIncStmtNode (.IDNode ⟨"x"⟩))
      (by decide)).2.1,
    (block_body_indented_one_deeper 1 .IntTypeNode ⟨"f"⟩ none .TrueNode
      [.PostIncStmtNode (.IDNode ⟨"x"⟩)] [] "" (.PostIncStmtNode (.IDNode ⟨"x"⟩))
      (by decide)).2.2.2⟩

/-- C4, as stated, fails: inside an `if` at depth 0 the body statement `x++;`
whose identifier is spelled with a leading tab is written at depth 0, and its
text begins with one tab, not with exactly zero. -/
theorem ifStmt_body_tab_name_counterexample :
    (StmtNode.IfStmtNode .TrueNode [.PostIncStmtNode (.IDNode ⟨"\tx"⟩)]).text 0
        = "if (true) \x7b\n" ++ (StmtNode.PostIncStmtNode (.IDNode ⟨"\tx"⟩)).text 0 ++ "\n\x7d\n"
      ∧ (StmtNode.PostIncStmtNode (.IDNode ⟨"\tx"⟩)).text 0 = "\tx++; \n"
      ∧ ¬ BeginsWithExactlyTabs ((StmtNode.PostIncStmtNode (.IDNode ⟨"\tx"⟩)).text 0) 0 := by
  decide

/-- C4, amended: an if-without-else at depth `d` writes `d` tabs, `if (`, the
depth-0 text of its condition, `) {`, a newline, its body statements in list
order at depth `d` itself (not `d + 1`), and the closing-brace line (a
newline, `}`, a newline); the text of a statement `s` written at depth `d`
begins with exactly `d` tabs provided the identifier `s` opens with (if it
opens with one) does not begin with a tab. -/
theorem ifStmt_body_same_depth (c : ExpNode) (body : List StmtNode) (d : Nat)
    (out : OStream) (s : StmtNode) (hname : s.firstNameNotTab = true) :
    (StmtNode.IfStmtNode c body).unparse out d
        = out ++ tabs d ++ "if (" ++ c.text 0 ++ ") \x7b" ++ "\n"
            ++ String.join (body.map fun s => s.text d) ++ ("\n" ++ "\x7d" ++ "\n")
      ∧ BeginsWithExactlyTabs (s.text d) d := by
  refine ⟨?_, stmt_text_beginsWith s d hname⟩
  rw [ifStmt_unparse]
  simp only [String.append_assoc]
  rfl

/-- Witness of C4, amended: `if (true) { x++; }` at depth 2. -/
theorem ifStmt_body_same_depth_witness :
    (StmtNode.PostIncStmtNode (.IDNode ⟨"x"⟩)).firstNameNotTab = true
      ∧ (StmtNode.IfStmtNode .TrueNode [.PostIncStmtNode (.IDNode ⟨"x"⟩)]).unparse "" 2
        = "" ++ tabs 2 ++ "if (" ++ ExpNode.TrueNode.text 0 ++ ") \x7b" ++ "\n"
            ++ String.join ([StmtNode.PostIncStmtNode (.IDNode ⟨"x"⟩)].map fun s => s.text 2)
            ++ ("\n" ++ "\x7d" ++ "\n")
      ∧ BeginsWithExactlyTabs ((StmtNode.PostIncStmtNode (.IDNode ⟨"x"⟩)).text 2) 2 :=
  ⟨by decide,
    ifStmt_body_same_depth .TrueNode [.PostIncStmtNode (.IDNode ⟨"x"⟩)] 2 ""
      (.PostIncStmtNode (.IDNode ⟨"x"⟩)) (by decide)⟩

/-- C5, as stated, fails: `Write(IntLiteral 7)` at depth 0 is written as
`report 7; ` and a newline, with a space between the `;` and the newline, and
a write of the assignment `x = 1` spans two lines. -/
theorem writeStmt_trailing_space_counterexample :
    (StmtNode.WriteStmtNode (.IntLitNode 7)).text 0 = "report 7; \n"
      ∧ (StmtNode.WriteStmtNode (.IntLitNode 7)).text 0 ≠ "report 7;\n"
      ∧ (StmtNode.WriteStmtNode (.AssignExpNode (.IDNode ⟨"x"⟩) (.IntLitNode 1))).text 0
          = "report x = 1; \n; \n" := by
  decide

/-- C5, amended: a Write statement wrapping `e` at depth `d` writes exactly
`d` tabs, `report `, the depth-0 text of `e`, `;`, one space and a newline;
what precedes that newline is a single line whenever the text of `e` holds no
newline; `Write(IntLiteral 7)` at depth 0 is `report 7; ` and a newline. -/
theorem writeStmt_unparse_report (e : ExpNode) (d : Nat) (out : OStream) :
    (StmtNode.WriteStmtNode e).unparse out d
        = out ++ (tabs d ++ "report " ++ e.text 0 ++ ";" ++ " ") ++ "\n"
      ∧ (noNewline (e.text 0) = true →
          noNewline (tabs d ++ "report " ++ e.text 0 ++ ";" ++ " ") = true)
      ∧ (StmtNode.WriteStmtNode (.IntLitNode 7)).unparse "" 0 = "report 7; " ++ "\n" := by
  refine ⟨?_, ?_, by decide⟩
  · rw [writeStmt_unparse]
    simp only [String.append_assoc]
    rfl
  · intro h
    simp only [noNewline_append, noNewline_tabs, h, Bool.true_and, Bool.and_true]
    decide

/-- Witness of C5, amended: `report 7;` at depth 1. -/
theorem writeStmt_unparse_report_witness :
    noNewline ((ExpNode.IntLitNode 7).text 0) = true
      ∧ noNewline (tabs 1 ++ "report " ++ (ExpNode.IntLitNode 7).text 0 ++ ";" ++ " ") = true :=
  ⟨by decide, (writeStmt_unparse_report (.IntLitNode 7) 1 "").2.1 (by decide)⟩

/-- C6, as stated, fails: `Read(Identifier "x")` at depth 0 is written as
`receive x; ` and a newline, with a space between the `;` and the newline. -/
theorem readStmt_trailing_space_counterexample :
    (StmtNode.ReadStmtNode (.IDNode ⟨"x"⟩)).text 0 = "receive x; \n"
      ∧ (StmtNode.ReadStmtNode (.IDNode ⟨"x"⟩)).text 0 ≠ "receive x;\n" := by
  decide

/-- C6, amended: a Read statement wrapping the lvalue `v` at depth `d` writes
exactly `d` tabs, `receive `, the depth-0 text of `v`, `;`, one space and a
newline; what precedes that newline is a single line whenever the text of `v`
holds no newline; `Read(Identifier "x")` at depth 0 is `receive x; ` and a
newline. -/
theorem readStmt_unparse_receive (v : LValNode) (d : Nat) (out : OStream) :
    (StmtNode.ReadStmtNode v).unparse out d
        = out ++ (tabs d ++ "receive " ++ v.text 0 ++ ";" ++ " ") ++ "\n"
      ∧ (noNewline (v.text 0) = true →
          noNewline (tabs d ++ "receive " ++ v.text 0 ++ ";" ++ " ") = true)
      ∧ (StmtNode.ReadStmtNode (.IDNode ⟨"x"⟩)).unparse "" 0 = "receive x; " ++ "\n" := by
  refine ⟨?_, ?_, by decide⟩
  · rw [readStmt_unparse]
    simp only [String.append_assoc]
    rfl
  · intro h
    simp only [noNewline_append, noNewline_tabs, h, Bool.true_and, Bool.and_true]
    decide

/-- Witness of C6, amended: `receive a[b];` at depth 1. -/
theorem readStmt_unparse_receive_witness :
    noNewline ((LValNode.IndexNode ⟨"a"⟩ ⟨"b"⟩).text 0) = true
      ∧ noNewline (tabs 1 ++ "receive " ++ (LValNode.IndexNode ⟨"a"⟩ ⟨"b"⟩).text 0
          ++ ";" ++ " ") = true :=
  ⟨by decide, (readStmt_unparse_receive (.IndexNode ⟨"a"⟩ ⟨"b"⟩) 1 "").2.1 (by decide)⟩

/-- What `ReturnStmtNode::unparse` writes when `expression` was set: for the
null pointer `d` tabs and `return;`, nothing standing between `return` and
`;`, and for an expression `e` the text `d` tabs, `return`, one space, the
depth-0 text of `e` and `;`; in both cases what follows is a space and a
newline. -/
theorem returnStmt_unparse_null_or_set (e : ExpNode) (d : Nat) (out : OStream) :
    (StmtNode.ReturnStmtNode none).unparse out d = out ++ tabs d ++ "return;" ++ " \n"
      ∧ (StmtNode.ReturnStmtNode (some e)).unparse out d
          = out ++ tabs d ++ "return" ++ " " ++ e.text 0 ++ ";" ++ " \n"
      ∧ (StmtNode.ReturnStmtNode (some (.IntLitNode 5))).text 0 = "return 5;" ++ " \n" := by
  refine ⟨?_, ?_, by decide⟩
  · rw [returnStmt_unparse]
    simp only [String.append_assoc]
    rfl
  · rw [returnStmt_unparse]
    simp only [String.append_assoc]
    rfl

/-- What `CallExpNode::unparse` writes when `arguments` was set: a call of `f`
whose argument list pointer is null and a call of `f` whose argument list is
empty get the same text at any depth `d`: `d` tabs, the name and `()`. -/
theorem callExp_unparse_null_or_empty (f : IDNode) (d : Nat) (out : OStream) :
    (ExpNode.CallExpNode f none).unparse out d = out ++ tabs d ++ f.name ++ "()"
      ∧ (ExpNode.CallExpNode f (some [])).unparse out d = out ++ tabs d ++ f.name ++ "()"
      ∧ (ExpNode.CallExpNode f none).unparse out d
          = (ExpNode.CallExpNode f (some [])).unparse out d
      ∧ (ExpNode.CallExpNode f none).text 0 = f.name ++ "()"
      ∧ (ExpNode.CallExpNode f (some [])).text 0 = f.name ++ "()"
      ∧ (ExpNode.CallExpNode ⟨"f"⟩ none).text 0 = "f()"
      ∧ (ExpNode.CallExpNode ⟨"f"⟩ (some [])).text 0 = "f()" := by
  have h : ∀ (args : Option (List ExpNode)) (o : OStream) (k : Nat), args.getD [] = [] →
      (ExpNode.CallExpNode f args).unparse o k = o ++ tabs k ++ f.name ++ "()" := by
    intro args o k hargs
    rw [callExp_unparse, hargs]
    simp only [List.map_nil, String.append_assoc]
    rfl
  refine ⟨h none out d rfl, h (some []) out d rfl,
    (h none out d rfl).trans (h (some []) out d rfl).symm, ?_, ?_, by decide, by decide⟩
  · rw [ExpNode.text, h none "" 0 rfl]
    rfl
  · rw [ExpNode.text, h (some []) "" 0 rfl]
    rfl

/-- C9: a program writes exactly the texts of its declarations at the given
depth, in list order, with nothing before, between or after them; the text of
a concatenated declaration list is the concatenation of the texts, and the
empty program writes nothing. -/
theorem program_unparse_in_order (xs ys : List DeclNode) (d : Nat) (out : OStream) :
    (ProgramNode.mk xs).unparse out d = out ++ String.join (xs.map fun x => x.text d)
      ∧ (ProgramNode.mk (xs ++ ys)).text d
          = (ProgramNode.mk xs).text d ++ (ProgramNode.mk ys).text d
      ∧ (ProgramNode.mk []).text d = ""
      ∧ (ProgramNode.mk []).unparse out d = out := by
  refine ⟨unparseGlobals_eq xs out d, ?_, rfl, rfl⟩
  simp only [ProgramNode.text, ProgramNode.unparse, unparseGlobals_eq, List.map_append,
    join_append, String.empty_append]

/-- C10: the program `int main() { int x; x = (3 + 4); report x; return 0; }`
at depth 0 is written as the line `int main() {`, four body lines that begin
with exactly one tab followed by `int x;`, `x = (3 + 4);`, `report x;` and
`return 0;` in this order, an empty line, and the line `}`. -/
theorem scenario_unparse :
    scenario.unparse "" 0
        = "int main() \x7b" ++ "\n"
          ++ ("\t" ++ "int x;" ++ "\n")
          ++ ("\t" ++ "x = (3 + 4);" ++ " \n")
          ++ ("\t" ++ "report x;" ++ " \n")
          ++ ("\t" ++ "return 0;" ++ " \n")
          ++ "\n" ++ "\x7d" ++ "\n"
      ∧ ((scenario.unparse "" 0).data.splitOn '\n').map String.mk
        = ["int main() \x7b", "\tint x;", "\tx = (3 + 4); ", "\treport x; ", "\treturn 0; ",
            "", "\x7d", ""]
      ∧ BeginsWithExactlyTabs "\tint x;" 1
      ∧ BeginsWithExactlyTabs "\tx = (3 + 4); " 1
      ∧ BeginsWithExactlyTabs "\treport x; " 1
      ∧ BeginsWithExactlyTabs "\treturn 0; " 1 := by
  decide

/-! ## Line ends -/

theorem endsWithText_append (a s t : String) (h : t.length ≤ s.length) :
    endsWithText (a ++ s) t = endsWithText s t := by
  unfold endsWithText
  simp only [String.length] at h
  rw [String.data_append, List.length_append, List.drop_append_eq_append_drop]
  have h1 : a.data.length + s.data.length - t.data.length - a.data.length
      = s.data.length - t.data.length := by omega
  have h2 : List.drop (a.data.length + s.data.length - t.data.length) a.data = [] := by
    apply List.drop_eq_nil_of_le
    omega
  rw [h1, h2, List.nil_append]

theorem endsWithSingleNewline_append (a s : String) (h : 2 ≤ s.length) :
    endsWithSingleNewline (a ++ s) = endsWithSingleNewline s := by
  unfold endsWithSingleNewline
  rw [String.data_append, List.reverse_append]
  have hlen : s.data.reverse.length = s.length := by
    rw [List.length_reverse]
    rfl
  cases hr : s.data.reverse with
  | nil =>
    rw [hr, List.length_nil] at hlen
    omega
  | cons x rest =>
    cases rest with
    | nil =>
      rw [hr, List.length_singleton] at hlen
      omega
    | cons y rest2 => rfl

/-- C17: a Negate node and a LogicalNot node, whatever their operand, write at
depth `d` exactly `d` tabs and the token `neg`, respectively `not`, and nothing
of the operand: two nodes of the same kind with different operands write the
same text. -/
theorem unary_unparse_bare_token (e e' : ExpNode) (d : Nat) (out : OStream) :
    (ExpNode.NegNode e).unparse out d = out ++ tabs d ++ "neg"
      ∧ (ExpNode.NotNode e).unparse out d = out ++ tabs d ++ "not"
      ∧ (ExpNode.NegNode e).unparse out d = (ExpNode.NegNode e').unparse out d
      ∧ (ExpNode.NotNode e).unparse out d = (ExpNode.NotNode e').unparse out d := by
  simp [ExpNode.unparse, doIndent_eq]

/-- C19: an assignment statement wrapping the assignment of `e` to `v` writes
at depth `d` exactly what the wrapped assignment expression writes at depth
`d`: `d` tabs, the depth-0 text of `v`, ` = `, the depth-0 text of `e`, `;`
and the line ending (a space and a newline). The wrapper adds nothing, so
`x = y;` reads the same as a statement and as an expression. -/
theorem assignStmt_unparse_wrapper (v : LValNode) (e : ExpNode) (d : Nat) (out : OStream) :
    (StmtNode.AssignStmtNode v e).unparse out d = (ExpNode.AssignExpNode v e).unparse out d
      ∧ (StmtNode.AssignStmtNode v e).unparse out d
          = out ++ tabs d ++ v.text 0 ++ " = " ++ e.text 0 ++ ";" ++ " \n"
      ∧ (StmtNode.AssignStmtNode (.IDNode ⟨"x"⟩) (.LVal (.IDNode ⟨"y"⟩))).text 0
          = "x = y;" ++ " \n"
      ∧ (ExpNode.AssignExpNode (.IDNode ⟨"x"⟩) (.LVal (.IDNode ⟨"y"⟩))).text 0
          = "x = y;" ++ " \n" := by
  refine ⟨?_, ?_, by decide, by decide⟩
  · rw [assignStmt_unparse, assignExp_unparse]
  · rw [assignStmt_unparse]
    simp only [String.append_assoc]
    rfl

/-- C20: a call of `f` with the non-empty argument list `a :: rest` writes at
depth `d` exactly `d` tabs, the name, `(`, the depth-0 texts of the arguments
in list order with nothing between two consecutive ones, and `)`. The call of
`f` with the arguments `a` and `b` is written `f(ab)`, as is the call of `f`
with the single argument `ab`. -/
theorem call_unparse_arguments_unseparated (f : IDNode) (a b : ExpNode)
    (rest : List ExpNode) (d : Nat) (out : OStream) :
    (ExpNode.CallExpNode f (some (a :: rest))).unparse out d
        = out ++ tabs d ++ f.name ++ "(" ++ String.join ((a :: rest).map fun x => x.text 0)
            ++ ")"
      ∧ String.join ((a :: rest).map fun x => x.text 0)
          = a.text 0 ++ String.join (rest.map fun x => x.text 0)
      ∧ (ExpNode.CallExpNode f (some [a, b])).unparse out d
          = out ++ tabs d ++ f.name ++ "(" ++ a.text 0 ++ b.text 0 ++ ")"
      ∧ (ExpNode.CallExpNode ⟨"f"⟩
            (some [.LVal (.IDNode ⟨"a"⟩), .LVal (.IDNode ⟨"b"⟩)])).text 0 = "f(ab)"
      ∧ (ExpNode.CallExpNode ⟨"f"⟩ (some [.LVal (.IDNode ⟨"ab"⟩)])).text 0 = "f(ab)" := by
  refine ⟨?_, ?_, ?_, by decide, by decide⟩
  · rw [callExp_unparse]
    simp only [Option.getD_some, String.append_assoc]
  · rw [List.map_cons, join_cons]
  · rw [callExp_unparse]
    have hj : String.join ([] : List String) = "" := rfl
    simp only [Option.getD_some, List.map_cons, List.map_nil, join_cons, hj,
      String.append_empty, String.append_assoc]

theorem stmt_ends_single_newline (s : StmtNode) (d : Nat) (hkind : s.isFormalDecl = false) :
    endsWithSingleNewline (s.text d) = true := by
  cases s with
  | Decl x =>
    cases x with
    | VarDeclNode t i =>
      have e := varDecl_unparse t i "" d
      simp only [StmtNode.text, StmtNode.unparse, e, ← String.append_assoc]
      rw [endsWithSingleNewline_append _ _ (by decide)]
      rfl
    | FormalDeclNode f => simp [StmtNode.isFormalDecl] at hkind
    | FnDeclNode t i ps body =>
      have e := fnDecl_unparse t i ps body "" d
      simp only [StmtNode.text, StmtNode.unparse, e, ← String.append_assoc]
      rw [endsWithSingleNewline_append _ _ (by decide)]
      rfl
  | AssignStmtNode v e =>
    have e1 := assignStmt_unparse v e "" d
    simp only [StmtNode.text, e1, ← String.append_assoc]
    rw [endsWithSingleNewline_append _ _ (by decide)]
    rfl
  | PostDecStmtNode v =>
    have e1 := postDecStmt_unparse v "" d
    simp only [StmtNode.text, e1, ← String.append_assoc]
    rw [endsWithSingleNewline_append _ _ (by decide)]
    rfl
  | PostIncStmtNode v =>
    have e1 := postIncStmt_unparse v "" d
    simp only [StmtNode.text, e1, ← String.append_assoc]
    rw [endsWithSingleNewline_append _ _ (by decide)]
    rfl
  | ReadStmtNode v =>
    have e1 := readStmt_unparse v "" d
    simp only [StmtNode.text, e1, ← String.append_assoc]
    rw [endsWithSingleNewline_append _ _ (by decide)]
    rfl
  | WriteStmtNode e =>
    have e1 := writeStmt_unparse e "" d
    simp only [StmtNode.text, e1, ← String.append_assoc]
    rw [endsWithSingleNewline_append _ _ (by decide)]
    rfl
  | ReturnStmtNode e =>
    have e1 := returnStmt_unparse e "" d
    simp only [StmtNode.text, e1, ← String.append_assoc]
    rw [endsWithSingleNewline_append _ _ (by decide)]
    rfl
  | WhileStmtNode c body =>
    have e1 := whileStmt_unparse c body "" d
    simp only [StmtNode.text, e1, ← String.append_assoc]
    rw [endsWithSingleNewline_append _ _ (by decide)]
    rfl
  | IfStmtNode c body =>
    have e1 := ifStmt_unparse c body "" d
    simp only [StmtNode.text, e1, ← String.append_assoc]
    rw [endsWithSingleNewline_append _ _ (by decide)]
    rfl
  | IfElseStmtNode c tb fb =>
    have e1 := ifElseStmt_unparse c tb fb "" d
    simp only [StmtNode.text, e1, ← String.append_assoc]
    rw [endsWithSingleNewline_append _ _ (by decide)]
    rfl
  | CallStmtNode f args =>
    have e1 := callStmt_unparse f args "" d
    simp only [StmtNode.text, e1, ← String.append_assoc]
    rw [endsWithSingleNewline_append _ _ (by decide)]
    rfl

/-- C12: the text of a statement or declaration of any of the kinds
VariableDecl, FunctionDecl, Assignment, PostIncrement, PostDecrement, Read,
Write, Return, If, IfElse, While and CallStatement (every statement that is not
a bare formal parameter), at any depth, ends with a newline character, and the
character right before that newline is not a newline. -/
theorem stmt_text_ends_with_single_newline (s : StmtNode) (x : DeclNode) (d : Nat)
    (hkind : s.isFormalDecl = false) (hdecl : (StmtNode.Decl x).isFormalDecl = false) :
    endsWithSingleNewline (s.text d) = true
      ∧ endsWithSingleNewline (x.text d) = true :=
  ⟨stmt_ends_single_newline s d hkind, stmt_ends_single_newline (.Decl x) d hdecl⟩

/-- Witness of C12: `return;` and the declaration `int x;` at depth 1. -/
theorem stmt_text_ends_with_single_newline_witness :
    (StmtNode.ReturnStmtNode none).isFormalDecl = false
      ∧ (StmtNode.Decl (.VarDeclNode .IntTypeNode ⟨"x"⟩)).isFormalDecl = false
      ∧ endsWithSingleNewline ((StmtNode.ReturnStmtNode none).text 1) = true
      ∧ endsWithSingleNewline ((DeclNode.VarDeclNode .IntTypeNode ⟨"x"⟩).text 1) = true :=
  ⟨by decide, by decide,
    stmt_text_ends_with_single_newline (.ReturnStmtNode none)
      (.VarDeclNode .IntTypeNode ⟨"x"⟩) 1 (by decide) (by decide)⟩

/-- C13, as stated, fails: the function `int f()` with an empty body and the
loop `while true` with an empty body, at depth 0, end with a newline, `}` and
one newline; they do not end with `}` and two newlines. -/
theorem block_trailing_blank_line_counterexample :
    (DeclNode.FnDeclNode .IntTypeNode ⟨"f"⟩ none []).text 0 = "int f() \x7b\n\n\x7d\n"
      ∧ endsWithText ((DeclNode.FnDeclNode .IntTypeNode ⟨"f"⟩ none []).text 0) "\x7d\n\n" = false
      ∧ (StmtNode.WhileStmtNode .TrueNode []).text 0 = "while true \x7b\n\n\x7d\n"
      ∧ endsWithText ((StmtNode.WhileStmtNode .TrueNode []).text 0) "\x7d\n\n" = false := by
  decide

/-- C13, amended: a function declaration, an if, an if/else and a while
statement at any depth open their block body with `{` and a newline and close
it with a newline, `}` and a newline. The extra newline stands before the
closing brace, not after it: the text ends with a newline, `}` and one
newline, and does not end with `}` and two newlines. -/
theorem block_layout_newline_before_brace (t : TypeNode) (n : IDNode)
    (ps : Option (List FormalDeclNode)) (c : ExpNode) (body elseBody : List StmtNode)
    (d : Nat) (out : OStream) :
    ((DeclNode.FnDeclNode t n ps body).unparse out d
        = out ++ tabs d ++ t.keyword ++ " " ++ n.name ++ "(" ++ paramsText ps ++ ") "
            ++ "\x7b" ++ "\n" ++ String.join (body.map fun s => s.text (d + 1))
            ++ "\n" ++ "\x7d" ++ "\n"
      ∧ (StmtNode.IfStmtNode c body).unparse out d
        = out ++ tabs d ++ "if (" ++ c.text 0 ++ ") "
            ++ "\x7b" ++ "\n" ++ String.join (body.map fun s => s.text d)
            ++ "\n" ++ "\x7d" ++ "\n"
      ∧ (StmtNode.IfElseStmtNode c body elseBody).unparse out d
        = out ++ tabs d ++ "if (" ++ c.text 0 ++ ") "
            ++ "\x7b" ++ "\n" ++ String.join (body.map fun s => s.text (d + 1))
            ++ "\n" ++ "\x7d" ++ "\n" ++ " else "
            ++ "\x7b" ++ "\n" ++ String.join (elseBody.map fun s => s.text (d + 1))
            ++ "\n" ++ "\x7d" ++ "\n"
      ∧ (StmtNode.WhileStmtNode c body).unparse out d
        = out ++ tabs d ++ "while " ++ c.text 0 ++ " "
            ++ "\x7b" ++ "\n" ++ String.join (body.map fun s => s.text (d + 1))
            ++ "\n" ++ "\x7d" ++ "\n")
      ∧ (endsWithText ((DeclNode.FnDeclNode t n ps body).text d) "\n\x7d\n" = true
        ∧ endsWithText ((StmtNode.IfStmtNode c body).text d) "\n\x7d\n" = true
        ∧ endsWithText ((StmtNode.IfElseStmtNode c body elseBody).text d) "\n\x7d\n" = true
        ∧ endsWithText ((StmtNode.WhileStmtNode c body).text d) "\n\x7d\n" = true)
      ∧ (endsWithText ((DeclNode.FnDeclNode t n ps body).text d) "\x7d\n\n" = false
        ∧ endsWithText ((StmtNode.IfStmtNode c body).text d) "\x7d\n\n" = false
        ∧ endsWithText ((StmtNode.IfElseStmtNode c body elseBody).text d) "\x7d\n\n" = false
        ∧ endsWithText ((StmtNode.WhileStmtNode c body).text d) "\x7d\n\n" = false) := by
  have e1 := fnDecl_unparse t n ps body
  have e2 := ifStmt_unparse c body
  have e3 := ifElseStmt_unparse c body elseBody
  have e4 := whileStmt_unparse c body
  refine ⟨⟨?_, ?_, ?_, ?_⟩, ⟨?_, ?_, ?_, ?_⟩, ⟨?_, ?_, ?_, ?_⟩⟩
  · rw [e1]; simp only [String.append_assoc]; rfl
  · rw [e2]; simp only [String.append_assoc]; rfl
  · rw [e3]; simp only [String.append_assoc]; rfl
  · rw [e4]; simp only [String.append_assoc]; rfl
  all_goals
    simp only [DeclNode.text, StmtNode.text, e1, e2, e3, e4, ← String.append_assoc]
    rw [endsWithText_append _ _ _ (by decide)]
    rfl

theorem binary_text_eq (op : BinaryOp) (l r : ExpNode) (out : OStream) (d : Nat) :
    (op.node l r).unparse out d
      = out ++ (tabs d ++ ("(" ++ (l.text 0 ++ ((" " ++ op.token ++ " ") ++ (r.text 0 ++ ")"))))) := by
  cases op <;>
    simp [BinaryOp.node, BinaryOp.token, ExpNode.unparse, exp_unparse_zero, doIndent_eq,
      String.append_assoc]
theorem literal_unparse (lit : ExpNode) (txt : String) (hlit : lit.literalText = some txt)
    (out : OStream) (d : Nat) : lit.unparse out d = out ++ (tabs d ++ txt) := by
  cases lit <;> simp [ExpNode.literalText] at hlit <;> subst hlit <;>
    simp [ExpNode.unparse, doIndent_eq, String.append_assoc]

theorem literal_text_zero (lit : ExpNode) (txt : String) (hlit : lit.literalText = some txt) :
    lit.text 0 = txt := by
  rw [ExpNode.text, literal_unparse lit txt hlit]
  rfl

theorem join_middle (before after : List ExpNode) (lit : ExpNode) :
    String.join ((before ++ lit :: after).map fun a => a.text 0)
      = String.join (before.map fun a => a.text 0)
          ++ (lit.text 0 ++ String.join (after.map fun a => a.text 0)) := by
  rw [List.map_append, join_append, List.map_cons, join_cons]

/-- C18: a literal node (True, False, a string, an int or a short literal)
written directly at depth `d` gives `d` tabs and the text of the literal
(`true`, `false`, the string verbatim, the decimal numeral of the stored
value). Wherever a node writes a sub-expression (an operand of a binary
operator, the right side of an assignment, a call argument, the expression of
a write or return statement, the condition of an if, if/else or while) it
writes it at depth 0, so a literal there contributes its text with no tab
before it, and the only indentation is the `d` tabs of the outermost node; a
unary operator writes nothing for its operand, so no tab either. -/
theorem literal_indentation (lit : ExpNode) (txt : String)
    (hlit : lit.literalText = some txt) (d : Nat) (out : OStream) (op : BinaryOp)
    (e : ExpNode) (v : LValNode) (f : IDNode) (before after : List ExpNode)
    (body elseBody : List StmtNode) :
    (lit.unparse out d = out ++ tabs d ++ txt ∧ lit.unparse out 0 = out ++ txt)
      ∧ ((op.node lit e).text d = tabs d ++ "(" ++ txt ++ " " ++ op.token ++ " " ++ e.text 0
            ++ ")"
        ∧ (op.node e lit).text d = tabs d ++ "(" ++ e.text 0 ++ " " ++ op.token ++ " " ++ txt
            ++ ")"
        ∧ (ExpNode.AssignExpNode v lit).text d = tabs d ++ v.text 0 ++ " = " ++ txt ++ "; \n"
        ∧ (ExpNode.CallExpNode f (some (before ++ lit :: after))).text d
            = tabs d ++ f.name ++ "(" ++ String.join (before.map fun a => a.text 0) ++ txt
                ++ String.join (after.map fun a => a.text 0) ++ ")"
        ∧ (ExpNode.NegNode lit).text d = tabs d ++ "neg"
        ∧ (ExpNode.NotNode lit).text d = tabs d ++ "not")
      ∧ ((StmtNode.WriteStmtNode lit).text d = tabs d ++ "report " ++ txt ++ "; \n"
        ∧ (StmtNode.ReturnStmtNode (some lit)).text d = tabs d ++ "return " ++ txt ++ "; \n"
        ∧ (StmtNode.AssignStmtNode v lit).text d = tabs d ++ v.text 0 ++ " = " ++ txt ++ "; \n"
        ∧ (StmtNode.CallStmtNode f (some (before ++ lit :: after))).text d
            = tabs d ++ f.name ++ "(" ++ String.join (before.map fun a => a.text 0) ++ txt
                ++ String.join (after.map fun a => a.text 0) ++ ");\n")
      ∧ ((StmtNode.IfStmtNode lit body).text d
            = tabs d ++ "if (" ++ txt ++ ") \x7b\n" ++ String.join (body.map fun s => s.text d)
                ++ "\n\x7d\n"
        ∧ (StmtNode.IfElseStmtNode lit body elseBody).text d
            = tabs d ++ "if (" ++ txt ++ ") \x7b\n"
                ++ String.join (body.map fun s => s.text (d + 1)) ++ "\n\x7d\n else \x7b\n"
                ++ String.join (elseBody.map fun s => s.text (d + 1)) ++ "\n\x7d\n"
        ∧ (StmtNode.WhileStmtNode lit body).text d
            = tabs d ++ "while " ++ txt ++ " \x7b\n"
                ++ String.join (body.map fun s => s.text (d + 1)) ++ "\n\x7d\n") := by
  have h0 := literal_text_zero lit txt hlit
  refine ⟨⟨?_, ?_⟩, ⟨?_, ?_, ?_, ?_, ?_, ?_⟩, ⟨?_, ?_, ?_, ?_⟩, ⟨?_, ?_, ?_⟩⟩
  · rw [literal_unparse lit txt hlit, String.append_assoc]
  · rw [literal_unparse lit txt hlit]; rfl
  · rw [ExpNode.text, binary_text_eq, h0]; simp only [String.append_assoc, String.empty_append]
  · rw [ExpNode.text, binary_text_eq, h0]; simp only [String.append_assoc, String.empty_append]
  · rw [ExpNode.text, assignExp_unparse, h0]
    simp only [String.append_assoc, String.empty_append]
  · rw [ExpNode.text, callExp_unparse, Option.getD_some, join_middle, h0]
    simp only [String.append_assoc, String.empty_append]
  · simp [ExpNode.text, ExpNode.unparse, doIndent_eq]
  · simp [ExpNode.text, ExpNode.unparse, doIndent_eq]
  · rw [StmtNode.text, writeStmt_unparse, h0]
    simp only [String.append_assoc, String.empty_append]
  · rw [StmtNode.text, returnStmt_unparse]
    simp only [h0, String.append_assoc, String.empty_append]
    rw [← String.append_assoc "return" " "]
    rfl
  · rw [StmtNode.text, assignStmt_unparse, h0]
    simp only [String.append_assoc, String.empty_append]
  · rw [StmtNode.text, callStmt_unparse, Option.getD_some, join_middle, h0]
    simp only [String.append_assoc, String.empty_append]
    rfl
  · rw [StmtNode.text, ifStmt_unparse, h0]
    simp only [String.append_assoc, String.empty_append]
  · rw [StmtNode.text, ifElseStmt_unparse, h0]
    simp only [String.append_assoc, String.empty_append]
  · rw [StmtNode.text, whileStmt_unparse, h0]
    simp only [String.append_assoc, String.empty_append]

/-- Witness of C18: the literal `7` alone and inside `report 7;` at depth 2. -/
theorem literal_indentation_witness :
    (ExpNode.IntLitNode 7).literalText = some "7"
      ∧ ((ExpNode.IntLitNode 7).unparse "" 2 = "" ++ tabs 2 ++ "7"
        ∧ (ExpNode.IntLitNode 7).unparse "" 0 = "" ++ "7")
      ∧ (StmtNode.WriteStmtNode (.IntLitNode 7)).text 2 = tabs 2 ++ "report " ++ "7" ++ "; \n" :=
  ⟨by decide,
    (literal_indentation (.IntLitNode 7) "7" (by decide) 2 "" .Add .TrueNode (.IDNode ⟨"x"⟩)
      ⟨"f"⟩ [] [] [] []).1,
    (literal_indentation (.IntLitNode 7) "7" (by decide) 2 "" .Add .TrueNode (.IDNode ⟨"x"⟩)
      ⟨"f"⟩ [] [] [] []).2.2.1.1⟩

theorem toDigitsCore_eq (fuel : Nat) : ∀ (n : Nat) (ds : List Char), n < fuel →
    Nat.toDigitsCore 10 fuel n ds = Nat.toDigits 10 n ++ ds := by
  induction fuel using Nat.strong_induction_on with
  | _ fuel ih =>
    intro n ds hn
    cases fuel with
    | zero => omega
    | succ k =>
      unfold Nat.toDigits
      rw [Nat.toDigitsCore, Nat.toDigitsCore]
      by_cases h : n / 10 = 0
      · simp [h]
      · simp only [h, if_false]
        have h1 : n / 10 < n := Nat.div_lt_self (by omega) (by decide)
        rw [ih k (Nat.lt_succ_self k) (n / 10) _ (by omega), ih n hn (n / 10) _ h1]
        simp

theorem toDigits_small (n : Nat) (h : n < 10) : Nat.toDigits 10 n = [Nat.digitChar n] := by
  unfold Nat.toDigits
  rw [Nat.toDigitsCore]
  have : n / 10 = 0 := Nat.div_eq_of_lt h
  simp [this, Nat.mod_eq_of_lt h]

theorem toDigits_big (n : Nat) (h : 10 ≤ n) :
    Nat.toDigits 10 n = Nat.toDigits 10 (n / 10) ++ [Nat.digitChar (n % 10)] := by
  have h0 : n / 10 ≠ 0 := by
    intro h0
    have := (Nat.div_eq_zero_iff (by decide : 0 < 10)).1 h0
    omega
  have h1 : n / 10 < n := Nat.div_lt_self (by omega) (by decide)
  conv_lhs => unfold Nat.toDigits
  rw [Nat.toDigitsCore]
  simp only [h0, if_false]
  rw [toDigitsCore_eq n (n / 10) _ h1]

theorem digitChar_isDigit (k : Nat) (h : k < 10) : (Nat.digitChar k).isDigit = true := by
  interval_cases k <;> decide

theorem toDigits_ne_nil (n : Nat) : Nat.toDigits 10 n ≠ [] := by
  by_cases h : n < 10
  · rw [toDigits_small n h]; simp
  · rw [toDigits_big n (by omega)]; simp

theorem toDigits_isDigit (n : Nat) : ∀ c ∈ Nat.toDigits 10 n, c.isDigit = true := by
  induction n using Nat.strong_induction_on with
  | _ n ih =>
    intro c hc
    by_cases h : n < 10
    · rw [toDigits_small n h] at hc
      simp at hc
      rw [hc]
      exact digitChar_isDigit n h
    · rw [toDigits_big n (by omega)] at hc
      simp only [List.mem_append, List.mem_singleton] at hc
      rcases hc with hc | hc
      · exact ih (n / 10) (Nat.div_lt_self (by omega) (by decide)) c hc
      · rw [hc]
        exact digitChar_isDigit _ (Nat.mod_lt _ (by decide))

theorem digitChar_inj (a b : Nat) (ha : a < 10) (hb : b < 10)
    (h : Nat.digitChar a = Nat.digitChar b) : a = b := by
  interval_cases a <;> interval_cases b <;> first | rfl | (exact absurd h (by decide))

theorem toDigits_inj (n : Nat) : ∀ m, Nat.toDigits 10 n = Nat.toDigits 10 m → n = m := by
  induction n using Nat.strong_induction_on with
  | _ n ih =>
    intro m h
    by_cases hn : n < 10
    · by_cases hm : m < 10
      · rw [toDigits_small n hn, toDigits_small m hm] at h
        exact digitChar_inj n m hn hm (by simpa using h)
      · rw [toDigits_small n hn, toDigits_big m (by omega)] at h
        have hl := congrArg List.length h
        have := List.length_pos.2 (toDigits_ne_nil (m / 10))
        rw [List.length_append, List.length_singleton, List.length_singleton] at hl
        omega
    · by_cases hm : m < 10
      · rw [toDigits_big n (by omega), toDigits_small m hm] at h
        have hl := congrArg List.length h
        have := List.length_pos.2 (toDigits_ne_nil (n / 10))
        rw [List.length_append, List.length_singleton, List.length_singleton] at hl
        omega
      · rw [toDigits_big n (by omega), toDigits_big m (by omega)] at h
        have h' := List.append_inj' h rfl
        have h1 := ih (n / 10) (Nat.div_lt_self (by omega) (by decide)) (m / 10) h'.1
        have h2 := digitChar_inj (n % 10) (m % 10) (Nat.mod_lt _ (by decide))
          (Nat.mod_lt _ (by decide)) (by simpa using h'.2)
        omega

theorem int_chars_ofNat (m : Nat) : (toString (Int.ofNat m)).data = Nat.toDigits 10 m := rfl

theorem int_chars_negSucc (m : Nat) :
    (toString (Int.negSucc m)).data = '-' :: Nat.toDigits 10 (m + 1) := rfl

theorem digits_split (D₁ : List Char) : ∀ (D₂ s t : List Char),
    (∀ c ∈ D₁, c.isDigit = true) → (∀ c ∈ D₂, c.isDigit = true) →
    noDigitAhead s = true → noDigitAhead t = true → D₁ ++ s = D₂ ++ t → D₁ = D₂ ∧ s = t := by
  induction D₁ with
  | nil =>
    intro D₂ s t _ h2 hs _ h
    cases D₂ with
    | nil => exact ⟨rfl, by simpa using h⟩
    | cons c r =>
      rw [List.nil_append] at h
      rw [h] at hs
      have := h2 c (List.mem_cons_self _ _)
      simp [noDigitAhead, this] at hs
  | cons c r ih =>
    intro D₂ s t h1 h2 hs ht h
    cases D₂ with
    | nil =>
      rw [List.nil_append] at h
      rw [← h] at ht
      have := h1 c (List.mem_cons_self _ _)
      simp [noDigitAhead, this] at ht
    | cons c' r' =>
      simp only [List.cons_append, List.cons.injEq] at h
      obtain ⟨hc, hr⟩ := h
      have := ih r' s t (fun x hx => h1 x (List.mem_cons_of_mem _ hx))
        (fun x hx => h2 x (List.mem_cons_of_mem _ hx)) hs ht hr
      exact ⟨by rw [hc, this.1], this.2⟩

theorem toDigits_head (n : Nat) : ∃ c r, Nat.toDigits 10 n = c :: r ∧ c.isDigit = true := by
  cases h : Nat.toDigits 10 n with
  | nil => exact absurd h (toDigits_ne_nil n)
  | cons c r =>
    refine ⟨c, r, rfl, ?_⟩
    apply toDigits_isDigit n
    rw [h]
    exact List.mem_cons_self _ _

theorem int_split (n m : Int) (s t : List Char) (hs : noDigitAhead s = true)
    (ht : noDigitAhead t = true) (h : (toString n).data ++ s = (toString m).data ++ t) :
    n = m ∧ s = t := by
  cases n with
  | ofNat a =>
    cases m with
    | ofNat b =>
      rw [int_chars_ofNat, int_chars_ofNat] at h
      have := digits_split _ _ s t (toDigits_isDigit a) (toDigits_isDigit b) hs ht h
      exact ⟨by rw [toDigits_inj a b this.1], this.2⟩
    | negSucc b =>
      rw [int_chars_ofNat, int_chars_negSucc] at h
      obtain ⟨c, r, hc, hd⟩ := toDigits_head a
      rw [hc] at h
      simp only [List.cons_append, List.cons.injEq] at h
      rw [h.1] at hd
      exact absurd hd (by decide)
  | negSucc a =>
    cases m with
    | ofNat b =>
      rw [int_chars_ofNat, int_chars_negSucc] at h
      obtain ⟨c, r, hc, hd⟩ := toDigits_head b
      rw [hc] at h
      simp only [List.cons_append, List.cons.injEq] at h
      rw [← h.1] at hd
      exact absurd hd (by decide)
    | negSucc b =>
      rw [int_chars_negSucc, int_chars_negSucc] at h
      simp only [List.cons_append, List.cons.injEq, true_and] at h
      have hd := digits_split _ _ s t (toDigits_isDigit (a + 1)) (toDigits_isDigit (b + 1))
        hs ht h
      have hab := toDigits_inj (a + 1) (b + 1) hd.1
      have hab' : a = b := by omega
      exact ⟨by rw [hab'], hd.2⟩

theorem int_chars_head (n : Int) : ∃ c r, (toString n).data = c :: r ∧ c ≠ '(' := by
  cases n with
  | ofNat a =>
    obtain ⟨c, r, hc, hd⟩ := toDigits_head a
    refine ⟨c, r, by rw [int_chars_ofNat, hc], ?_⟩
    intro h
    rw [h] at hd
    exact absurd hd (by decide)
  | negSucc a => exact ⟨'-', _, int_chars_negSucc a, by decide⟩

theorem token_data (op : BinaryOp) : op.token.data = op.tokenChars := by
  cases op <;> rfl

theorem token_split (op op' : BinaryOp) (x y : List Char)
    (h : op.tokenChars ++ ' ' :: x = op'.tokenChars ++ ' ' :: y) : op = op' ∧ x = y := by
  cases op <;> cases op' <;> simp [BinaryOp.tokenChars] at h ⊢ <;> exact h

theorem litBin_chars (a : LitBin) : (a.toExp.text 0).data = a.chars := by
  induction a with
  | lit n => rfl
  | bin op l r ihl ihr =>
    rw [LitBin.toExp, ExpNode.text, binary_text_eq]
    simp [String.data_append, ihl, ihr, token_data, LitBin.chars, tabs]

theorem litBin_split (a : LitBin) : ∀ (b : LitBin) (s t : List Char),
    noDigitAhead s = true → noDigitAhead t = true → a.chars ++ s = b.chars ++ t →
    a = b ∧ s = t := by
  induction a with
  | lit n =>
    intro b s t hs ht h
    cases b with
    | lit m =>
      have := int_split n m s t hs ht h
      exact ⟨by rw [this.1], this.2⟩
    | bin op l r =>
      obtain ⟨c, rest, hc, hne⟩ := int_chars_head n
      simp only [LitBin.chars, hc, List.cons_append, List.cons.injEq] at h
      exact absurd h.1 hne
  | bin op l r ihl ihr =>
    intro b s t hs ht h
    cases b with
    | lit m =>
      obtain ⟨c, rest, hc, hne⟩ := int_chars_head m
      simp only [LitBin.chars, hc, List.cons_append, List.cons.injEq] at h
      exact absurd h.1.symm hne
    | bin op' l' r' =>
      simp only [LitBin.chars, List.cons_append, List.append_assoc, List.cons.injEq,
        true_and, List.nil_append] at h
      have h1 := ihl l' _ _ (by rfl) (by rfl) h
      have h2 := List.cons.inj h1.2
      have h3 := token_split op op' _ _ h2.2
      have h4 := ihr r' _ _ (by rfl) (by rfl) h3.2
      have h5 := List.cons.inj h4.2
      exact ⟨by rw [h1.1, h3.1, h4.1], h5.2⟩

/-! ## Rendering over nullable pointers -/

theorem rawLVal_unparse_some (v : RawLValNode) (h : v.wellFormed = true) (out : OStream)
    (d : Nat) : ∃ txt, v.unparse out d = some txt := by
  cases v with
  | IDNode id => exact ⟨_, rfl⟩
  | IndexNode base field =>
    cases base <;> cases field <;> simp [RawLValNode.wellFormed] at h
    exact ⟨_, rfl⟩

mutual
theorem rawExp_unparse_some : ∀ (e : RawExpNode), e.wellFormed = true →
    ∀ (out : OStream) (d : Nat), ∃ txt, e.unparse out d = some txt
  | .TrueNode, _, _, _ => ⟨_, rfl⟩
  | .FalseNode, _, _, _ => ⟨_, rfl⟩
  | .StrLitNode _, _, _, _ => ⟨_, rfl⟩
  | .IntLitNode _, _, _, _ => ⟨_, rfl⟩
  | .ShortLitNode _, _, _, _ => ⟨_, rfl⟩
  | .NegNode _, _, _, _ => ⟨_, rfl⟩
  | .NotNode _, _, _, _ => ⟨_, rfl⟩
  | .CallExpNode call, h, out, d => by
    simp only [RawExpNode.wellFormed] at h
    simpa only [RawExpNode.unparse] using rawCall_unparse_some call h out d
  | .LVal lval, h, out, d => by
    simp only [RawExpNode.wellFormed] at h
    simpa only [RawExpNode.unparse] using rawLVal_unparse_some lval h out d
  | .BinaryExpNode cls (some l) (some r), h, out, d => by
    simp only [RawExpNode.wellFormed, Bool.and_eq_true] at h
    obtain ⟨t1, h1⟩ := rawExp_unparse_some l h.1 (doIndent out d ++ "(") 0
    obtain ⟨t2, h2⟩ := rawExp_unparse_some r h.2 (t1 ++ (" " ++ cls.token ++ " ")) 0
    exact ⟨t2 ++ ")", by simp [RawExpNode.unparse, h1, h2]⟩
  | .BinaryExpNode _ none _, h, _, _ => by simp [RawExpNode.wellFormed] at h
  | .BinaryExpNode _ (some _) none, h, _, _ => by simp [RawExpNode.wellFormed] at h
  | .AssignExpNode assign, h, out, d => by
    simp only [RawExpNode.wellFormed] at h
    simpa only [RawExpNode.unparse] using rawAssign_unparse_some assign h out d
theorem rawCall_unparse_some : ∀ (c : RawCallExpNode), c.wellFormed = true →
    ∀ (out : OStream) (d : Nat), ∃ txt, c.unparse out d = some txt
  | .mk (some f) .null, _, out, d => ⟨_, rfl⟩
  | .mk (some f) (.node args), h, out, d => by
    simp only [RawCallExpNode.wellFormed] at h
    obtain ⟨t1, h1⟩ := rawArgs_unparse_some args h (f.unparse (doIndent out d) 0 ++ "(")
    exact ⟨t1 ++ ")", by simp [RawCallExpNode.unparse, h1]⟩
  | .mk (some _) .wild, h, _, _ => by simp [RawCallExpNode.wellFormed] at h
  | .mk none _, h, _, _ => by simp [RawCallExpNode.wellFormed] at h
theorem rawAssign_unparse_some : ∀ (a : RawAssignExpNode), a.wellFormed = true →
    ∀ (out : OStream) (d : Nat), ∃ txt, a.unparse out d = some txt
  | .mk (some v) (some e), h, out, d => by
    simp only [RawAssignExpNode.wellFormed, Bool.and_eq_true] at h
    obtain ⟨t1, h1⟩ := rawLVal_unparse_some v h.1 (doIndent out d) 0
    obtain ⟨t2, h2⟩ := rawExp_unparse_some e h.2 (t1 ++ " = ") 0
    exact ⟨t2 ++ "; \n", by simp [RawAssignExpNode.unparse, h1, h2]⟩
  | .mk none _, h, _, _ => by simp [RawAssignExpNode.wellFormed] at h
  | .mk (some _) none, h, _, _ => by simp [RawAssignExpNode.wellFormed] at h
theorem rawArgs_unparse_some : ∀ (args : List (Option RawExpNode)),
    RawExpNode.wellFormedArgs args = true →
    ∀ (out : OStream), ∃ txt, RawExpNode.unparseArgs args out = some txt
  | [], _, out => ⟨out, rfl⟩
  | none :: _, h, _ => by simp [RawExpNode.wellFormedArgs] at h
  | some a :: rest, h, out => by
    simp only [RawExpNode.wellFormedArgs, Bool.and_eq_true] at h
    obtain ⟨t1, h1⟩ := rawExp_unparse_some a h.1 out 0
    obtain ⟨t2, h2⟩ := rawArgs_unparse_some rest h.2 t1
    exact ⟨t2, by simp [RawExpNode.unparseArgs, h1, h2]⟩
end

theorem rawFormal_unparse_some (f : RawFormalDeclNode) (h : f.wellFormed = true)
    (out : OStream) (d : Nat) : ∃ txt, f.unparse out d = some txt := by
  obtain ⟨t, i⟩ := f
  cases t <;> cases i <;> simp [RawFormalDeclNode.wellFormed] at h
  exact ⟨_, rfl⟩

theorem rawParams_unparse_some : ∀ (ps : List (Option RawFormalDeclNode)),
    RawFormalDeclNode.wellFormedParams ps = true →
    ∀ (out : OStream) (comma : String),
      ∃ txt, RawFormalDeclNode.unparseParams ps out comma = some txt
  | [], _, out, _ => ⟨out, rfl⟩
  | none :: _, h, _, _ => by simp [RawFormalDeclNode.wellFormedParams] at h
  | some p :: rest, h, out, comma => by
    simp only [RawFormalDeclNode.wellFormedParams, Bool.and_eq_true] at h
    obtain ⟨t1, h1⟩ := rawFormal_unparse_some p h.1 (out ++ comma) 0
    obtain ⟨t2, h2⟩ := rawParams_unparse_some rest h.2 t1 ", "
    exact ⟨t2, by simp [RawFormalDeclNode.unparseParams, h1, h2]⟩

mutual
theorem rawDecl_unparse_some : ∀ (x : RawDeclNode), x.wellFormed = true →
    ∀ (out : OStream) (d : Nat), ∃ txt, x.unparse out d = some txt
  | .VarDeclNode (some _) (some _), _, _, _ => ⟨_, rfl⟩
  | .VarDeclNode none _, h, _, _ => by simp [RawDeclNode.wellFormed] at h
  | .VarDeclNode (some _) none, h, _, _ => by simp [RawDeclNode.wellFormed] at h
  | .FormalDeclNode f, h, out, d => by
    simp only [RawDeclNode.wellFormed] at h
    simpa only [RawDeclNode.unparse] using rawFormal_unparse_some f h out d
  | .FnDeclNode (some t) (some i) none (some body), h, out, d => by
    simp only [RawDeclNode.wellFormed, Bool.and_eq_true] at h
    obtain ⟨t1, h1⟩ := rawBody_unparse_some body h.2
      (i.unparse (t.unparse (doIndent out d) 0 ++ " ") 0 ++ "(" ++ ") \x7b\n") (d + 1)
    exact ⟨t1 ++ "\n\x7d\n", by simp [RawDeclNode.unparse, h1]⟩
  | .FnDeclNode (some t) (some i) (some ps) (some body), h, out, d => by
    simp only [RawDeclNode.wellFormed, Bool.and_eq_true] at h
    obtain ⟨t0, h0⟩ := rawParams_unparse_some ps h.1.2
      (i.unparse (t.unparse (doIndent out d) 0 ++ " ") 0 ++ "(") ""
    obtain ⟨t1, h1⟩ := rawBody_unparse_some body h.2 (t0 ++ ") \x7b\n") (d + 1)
    exact ⟨t1 ++ "\n\x7d\n", by simp [RawDeclNode.unparse, h0, h1]⟩
  | .FnDeclNode none _ none (some _), h, _, _ => by simp [RawDeclNode.wellFormed] at h
  | .FnDeclNode (some _) none none (some _), h, _, _ => by simp [RawDeclNode.wellFormed] at h
  | .FnDeclNode none _ (some _) (some _), h, _, _ => by simp [RawDeclNode.wellFormed] at h
  | .FnDeclNode (some _) none (some _) (some _), h, _, _ => by
    simp [RawDeclNode.wellFormed] at h
  | .FnDeclNode _ _ none none, h, _, _ => by simp [RawDeclNode.wellFormed] at h
  | .FnDeclNode _ _ (some _) none, h, _, _ => by simp [RawDeclNode.wellFormed] at h
theorem rawStmt_unparse_some : ∀ (s : RawStmtNode), s.wellFormed = true →
    ∀ (out : OStream) (d : Nat), ∃ txt, s.unparse out d = some txt
  | .Decl x, h, out, d => by
    simp only [RawStmtNode.wellFormed] at h
    simpa only [RawStmtNode.unparse] using rawDecl_unparse_some x h out d
  | .AssignStmtNode (some a), h, out, d => by
    simp only [RawStmtNode.wellFormed] at h
    simpa only [RawStmtNode.unparse] using rawAssign_unparse_some a h (doIndent out d) 0
  | .AssignStmtNode none, h, _, _ => by simp [RawStmtNode.wellFormed] at h
  | .PostDecStmtNode (some v), h, out, d => by
    simp only [RawStmtNode.wellFormed] at h
    obtain ⟨t1, h1⟩ := rawLVal_unparse_some v h (doIndent out d) 0
    exact ⟨t1 ++ "--; \n", by simp [RawStmtNode.unparse, h1]⟩
  | .PostDecStmtNode none, h, _, _ => by simp [RawStmtNode.wellFormed] at h
  | .PostIncStmtNode (some v), h, out, d => by
    simp only [RawStmtNode.wellFormed] at h
    obtain ⟨t1, h1⟩ := rawLVal_unparse_some v h (doIndent out d) 0
    exact ⟨t1 ++ "++; \n", by simp [RawStmtNode.unparse, h1]⟩
  | .PostIncStmtNode none, h, _, _ => by simp [RawStmtNode.wellFormed] at h
  | .ReadStmtNode (some v), h, out, d => by
    simp only [RawStmtNode.wellFormed] at h
    obtain ⟨t1, h1⟩ := rawLVal_unparse_some v h (doIndent out d ++ "receive ") 0
    exact ⟨t1 ++ "; \n", by simp [RawStmtNode.unparse, h1]⟩
  | .ReadStmtNode none, h, _, _ => by simp [RawStmtNode.wellFormed] at h
  | .WriteStmtNode (some e), h, out, d => by
    simp only [RawStmtNode.wellFormed] at h
    obtain ⟨t1, h1⟩ := rawExp_unparse_some e h (doIndent out d ++ "report ") 0
    exact ⟨t1 ++ "; \n", by simp [RawStmtNode.unparse, h1]⟩
  | .WriteStmtNode none, h, _, _ => by simp [RawStmtNode.wellFormed] at h
  | .ReturnStmtNode .null, _, _, _ => ⟨_, rfl⟩
  | .ReturnStmtNode (.node e), h, out, d => by
    simp only [RawStmtNode.wellFormed] at h
    obtain ⟨t1, h1⟩ := rawExp_unparse_some e h (doIndent out d ++ "return" ++ " ") 0
    exact ⟨t1 ++ "; \n", by simp [RawStmtNode.unparse, h1]⟩
  | .ReturnStmtNode .wild, h, _, _ => by simp [RawStmtNode.wellFormed] at h
  | .WhileStmtNode (some c) (some body), h, out, d => by
    simp only [RawStmtNode.wellFormed, Bool.and_eq_true] at h
    obtain ⟨t1, h1⟩ := rawExp_unparse_some c h.1 (doIndent out d ++ "while ") 0
    obtain ⟨t2, h2⟩ := rawBody_unparse_some body h.2 (t1 ++ " \x7b\n") (d + 1)
    exact ⟨t2 ++ "\n\x7d\n", by simp [RawStmtNode.unparse, h1, h2]⟩
  | .WhileStmtNode none _, h, _, _ => by simp [RawStmtNode.wellFormed] at h
  | .WhileStmtNode (some _) none, h, _, _ => by simp [RawStmtNode.wellFormed] at h
  | .IfStmtNode (some c) (some body), h, out, d => by
    simp only [RawStmtNode.wellFormed, Bool.and_eq_true] at h
    obtain ⟨t1, h1⟩ := rawExp_unparse_some c h.1 (doIndent out d ++ "if (") 0
    obtain ⟨t2, h2⟩ := rawBody_unparse_some body h.2 (t1 ++ ") \x7b\n") d
    exact ⟨t2 ++ "\n\x7d\n", by simp [RawStmtNode.unparse, h1, h2]⟩
  | .IfStmtNode none _, h, _, _ => by simp [RawStmtNode.wellFormed] at h
  | .IfStmtNode (some _) none, h, _, _ => by simp [RawStmtNode.wellFormed] at h
  | .IfElseStmtNode (some c) (some tb) (some fb), h, out, d => by
    simp only [RawStmtNode.wellFormed, Bool.and_eq_true] at h
    obtain ⟨t1, h1⟩ := rawExp_unparse_some c h.1.1 (doIndent out d ++ "if (") 0
    obtain ⟨t2, h2⟩ := rawBody_unparse_some tb h.1.2 (t1 ++ ") \x7b\n") (d + 1)
    obtain ⟨t3, h3⟩ := rawBody_unparse_some fb h.2 (t2 ++ "\n\x7d\n else \x7b\n") (d + 1)
    exact ⟨t3 ++ "\n\x7d\n", by simp [RawStmtNode.unparse, h1, h2, h3]⟩
  | .IfElseStmtNode none _ _, h, _, _ => by simp [RawStmtNode.wellFormed] at h
  | .IfElseStmtNode (some _) none _, h, _, _ => by simp [RawStmtNode.wellFormed] at h
  | .IfElseStmtNode (some _) (some _) none, h, _, _ => by simp [RawStmtNode.wellFormed] at h
  | .CallStmtNode (some c), h, out, d => by
    simp only [RawStmtNode.wellFormed] at h
    obtain ⟨t1, h1⟩ := rawCall_unparse_some c h (doIndent out d) 0
    exact ⟨t1 ++ ";\n", by simp [RawStmtNode.unparse, h1]⟩
  | .CallStmtNode none, h, _, _ => by simp [RawStmtNode.wellFormed] at h
theorem rawBody_unparse_some : ∀ (body : List (Option RawStmtNode)),
    RawStmtNode.wellFormedBody body = true →
    ∀ (out : OStream) (d : Nat), ∃ txt, RawStmtNode.unparseBody body out d = some txt
  | [], _, out, _ => ⟨out, rfl⟩
  | none :: _, h, _, _ => by simp [RawStmtNode.wellFormedBody] at h
  | some s :: rest, h, out, d => by
    simp only [RawStmtNode.wellFormedBody, Bool.and_eq_true] at h
    obtain ⟨t1, h1⟩ := rawStmt_unparse_some s h.1 out d
    obtain ⟨t2, h2⟩ := rawBody_unparse_some rest h.2 t1 d
    exact ⟨t2, by simp [RawStmtNode.unparseBody, h1, h2]⟩
end

theorem rawGlobals_unparse_some : ∀ (xs : List (Option RawDeclNode)),
    RawProgramNode.wellFormedGlobals xs = true →
    ∀ (out : OStream) (d : Nat), ∃ txt, RawProgramNode.unparseGlobals xs out d = some txt
  | [], _, out, _ => ⟨out, rfl⟩
  | none :: _, h, _, _ => by simp [RawProgramNode.wellFormedGlobals] at h
  | some x :: rest, h, out, d => by
    simp only [RawProgramNode.wellFormedGlobals, Bool.and_eq_true] at h
    obtain ⟨t1, h1⟩ := rawDecl_unparse_some x h.1 out d
    obtain ⟨t2, h2⟩ := rawGlobals_unparse_some rest h.2 t1 d
    exact ⟨t2, by simp [RawProgramNode.unparseGlobals, h1, h2]⟩

theorem rawProgram_unparse_some (p : RawProgramNode) (h : p.wellFormed = true)
    (out : OStream) (d : Nat) : ∃ txt, p.unparse out d = some txt := by
  obtain ⟨g⟩ := p
  cases g with
  | none => simp [RawProgramNode.wellFormed] at h
  | some xs =>
    simp only [RawProgramNode.wellFormed] at h
    exact rawGlobals_unparse_some xs h out d

theorem lval_toRaw_unparse (v : LValNode) (out : OStream) (d : Nat) :
    v.toRaw.unparse out d = some (v.unparse out d) := by
  cases v <;> rfl

theorem lval_toRaw_wellFormed (v : LValNode) : v.toRaw.wellFormed = true := by
  cases v <;> rfl

mutual
theorem exp_toRaw_unparse : ∀ (e : ExpNode) (out : OStream) (d : Nat),
    e.toRaw.unparse out d = some (e.unparse out d)
  | .TrueNode, _, _ => rfl
  | .FalseNode, _, _ => rfl
  | .StrLitNode _, _, _ => rfl
  | .IntLitNode _, _, _ => rfl
  | .ShortLitNode _, _, _ => rfl
  | .NegNode _, _, _ => rfl
  | .NotNode _, _, _ => rfl
  | .CallExpNode f none, _, _ => rfl
  | .CallExpNode f (some args), out, d => by
    simp [ExpNode.toRaw, RawExpNode.unparse, RawCallExpNode.unparse, ExpNode.unparse,
      args_toRaw_unparse args]
  | .LVal v, out, d => by
    simp [ExpNode.toRaw, RawExpNode.unparse, ExpNode.unparse, lval_toRaw_unparse]
  | .AndNode l r, out, d => by
    simp [ExpNode.toRaw, RawExpNode.unparse, ExpNode.unparse, exp_toRaw_unparse l,
      exp_toRaw_unparse r, BinaryOp.token]
  | .DivideNode l r, out, d => by
    simp [ExpNode.toRaw, RawExpNode.unparse, ExpNode.unparse, exp_toRaw_unparse l,
      exp_toRaw_unparse r, BinaryOp.token]
  | .EqualsNode l r, out, d => by
    simp [ExpNode.toRaw, RawExpNode.unparse, ExpNode.unparse, exp_toRaw_unparse l,
      exp_toRaw_unparse r, BinaryOp.token]
  | .GreaterEqNode l r, out, d => by
    simp [ExpNode.toRaw, RawExpNode.unparse, ExpNode.unparse, exp_toRaw_unparse l,
      exp_toRaw_unparse r, BinaryOp.token]
  | .GreaterNode l r, out, d => by
    simp [ExpNode.toRaw, RawExpNode.unparse, ExpNode.unparse, exp_toRaw_unparse l,
      exp_toRaw_unparse r, BinaryOp.token]
  | .LessEqNode l r, out, d => by
    simp [ExpNode.toRaw, RawExpNode.unparse, ExpNode.unparse, exp_toRaw_unparse l,
      exp_toRaw_unparse r, BinaryOp.token]
  | .LessNode l r, out, d => by
    simp [ExpNode.toRaw, RawExpNode.unparse, ExpNode.unparse, exp_toRaw_unparse l,
      exp_toRaw_unparse r, BinaryOp.token]
  | .MinusNode l r, out, d => by
    simp [ExpNode.toRaw, RawExpNode.unparse, ExpNode.unparse, exp_toRaw_unparse l,
      exp_toRaw_unparse r, BinaryOp.token]
  | .NotEqualsNode l r, out, d => by
    simp [ExpNode.toRaw, RawExpNode.unparse, ExpNode.unparse, exp_toRaw_unparse l,
      exp_toRaw_unparse r, BinaryOp.token]
  | .OrNode l r, out, d => by
    simp [ExpNode.toRaw, RawExpNode.unparse, ExpNode.unparse, exp_toRaw_unparse l,
      exp_toRaw_unparse r, BinaryOp.token]
  | .PlusNode l r, out, d => by
    simp [ExpNode.toRaw, RawExpNode.unparse, ExpNode.unparse, exp_toRaw_unparse l,
      exp_toRaw_unparse r, BinaryOp.token]
  | .TimesNode l r, out, d => by
    simp [ExpNode.toRaw, RawExpNode.unparse, ExpNode.unparse, exp_toRaw_unparse l,
      exp_toRaw_unparse r, BinaryOp.token]
  | .AssignExpNode v e, out, d => by
    simp [ExpNode.toRaw, RawExpNode.unparse, RawAssignExpNode.unparse, ExpNode.unparse,
      lval_toRaw_unparse, exp_toRaw_unparse e]
theorem args_toRaw_unparse : ∀ (args : List ExpNode) (out : OStream),
    RawExpNode.unparseArgs (ExpNode.toRawArgs args) out = some (ExpNode.unparseArgs args out)
  | [], _ => rfl
  | a :: rest, out => by
    simp [ExpNode.toRawArgs, RawExpNode.unparseArgs, ExpNode.unparseArgs,
      exp_toRaw_unparse a, args_toRaw_unparse rest]
end

mutual
theorem exp_toRaw_wellFormed : ∀ (e : ExpNode), e.toRaw.wellFormed = true
  | .TrueNode => rfl
  | .FalseNode => rfl
  | .StrLitNode _ => rfl
  | .IntLitNode _ => rfl
  | .ShortLitNode _ => rfl
  | .NegNode e => by simp [ExpNode.toRaw, RawExpNode.wellFormed, exp_toRaw_wellFormed e]
  | .NotNode e => by simp [ExpNode.toRaw, RawExpNode.wellFormed, exp_toRaw_wellFormed e]
  | .CallExpNode f none => rfl
  | .CallExpNode f (some args) => by
    simp [ExpNode.toRaw, RawExpNode.wellFormed, RawCallExpNode.wellFormed,
      args_toRaw_wellFormed args]
  | .LVal v => by simp [ExpNode.toRaw, RawExpNode.wellFormed, lval_toRaw_wellFormed]
  | .AndNode l r => by
    simp [ExpNode.toRaw, RawExpNode.wellFormed, exp_toRaw_wellFormed l, exp_toRaw_wellFormed r]
  | .DivideNode l r => by
    simp [ExpNode.toRaw, RawExpNode.wellFormed, exp_toRaw_wellFormed l, exp_toRaw_wellFormed r]
  | .EqualsNode l r => by
    simp [ExpNode.toRaw, RawExpNode.wellFormed, exp_toRaw_wellFormed l, exp_toRaw_wellFormed r]
  | .GreaterEqNode l r => by
    simp [ExpNode.toRaw, RawExpNode.wellFormed, exp_toRaw_wellFormed l, exp_toRaw_wellFormed r]
  | .GreaterNode l r => by
    simp [ExpNode.toRaw, RawExpNode.wellFormed, exp_toRaw_wellFormed l, exp_toRaw_wellFormed r]
  | .LessEqNode l r => by
    simp [ExpNode.toRaw, RawExpNode.wellFormed, exp_toRaw_wellFormed l, exp_toRaw_wellFormed r]
  | .LessNode l r => by
    simp [ExpNode.toRaw, RawExpNode.wellFormed, exp_toRaw_wellFormed l, exp_toRaw_wellFormed r]
  | .MinusNode l r => by
    simp [ExpNode.toRaw, RawExpNode.wellFormed, exp_toRaw_wellFormed l, exp_toRaw_wellFormed r]
  | .NotEqualsNode l r => by
    simp [ExpNode.toRaw, RawExpNode.wellFormed, exp_toRaw_wellFormed l, exp_toRaw_wellFormed r]
  | .OrNode l r => by
    simp [ExpNode.toRaw, RawExpNode.wellFormed, exp_toRaw_wellFormed l, exp_toRaw_wellFormed r]
  | .PlusNode l r => by
    simp [ExpNode.toRaw, RawExpNode.wellFormed, exp_toRaw_wellFormed l, exp_toRaw_wellFormed r]
  | .TimesNode l r => by
    simp [ExpNode.toRaw, RawExpNode.wellFormed, exp_toRaw_wellFormed l, exp_toRaw_wellFormed r]
  | .AssignExpNode v e => by
    simp [ExpNode.toRaw, RawExpNode.wellFormed, RawAssignExpNode.wellFormed,
      lval_toRaw_wellFormed, exp_toRaw_wellFormed e]
theorem args_toRaw_wellFormed : ∀ (args : List ExpNode),
    RawExpNode.wellFormedArgs (ExpNode.toRawArgs args) = true
  | [] => rfl
  | a :: rest => by
    simp [ExpNode.toRawArgs, RawExpNode.wellFormedArgs, exp_toRaw_wellFormed a,
      args_toRaw_wellFormed rest]
end

theorem formal_toRaw_unparse (f : FormalDeclNode) (out : OStream) (d : Nat) :
    f.toRaw.unparse out d = some (f.unparse out d) := rfl

theorem params_toRaw_unparse : ∀ (ps : List FormalDeclNode) (out : OStream) (comma : String),
    RawFormalDeclNode.unparseParams (FormalDeclNode.toRawParams ps) out comma
      = some (FormalDeclNode.unparseParams ps out comma)
  | [], _, _ => rfl
  | p :: rest, out, comma => by
    simp [FormalDeclNode.toRawParams, RawFormalDeclNode.unparseParams,
      FormalDeclNode.unparseParams, formal_toRaw_unparse, params_toRaw_unparse rest]

theorem params_toRaw_wellFormed : ∀ (ps : List FormalDeclNode),
    RawFormalDeclNode.wellFormedParams (FormalDeclNode.toRawParams ps) = true
  | [] => rfl
  | p :: rest => by
    simp [FormalDeclNode.toRawParams, RawFormalDeclNode.wellFormedParams,
      RawFormalDeclNode.wellFormed, FormalDeclNode.toRaw, params_toRaw_wellFormed rest]

mutual
theorem decl_toRaw_unparse : ∀ (x : DeclNode) (out : OStream) (d : Nat),
    x.toRaw.unparse out d = some (x.unparse out d)
  | .VarDeclNode _ _, _, _ => rfl
  | .FormalDeclNode _, _, _ => rfl
  | .FnDeclNode t i none body, out, d => by
    simp [DeclNode.toRaw, RawDeclNode.unparse, DeclNode.unparse, body_toRaw_unparse body]
  | .FnDeclNode t i (some ps) body, out, d => by
    simp [DeclNode.toRaw, RawDeclNode.unparse, DeclNode.unparse, body_toRaw_unparse body,
      params_toRaw_unparse]
theorem stmt_toRaw_unparse : ∀ (s : StmtNode) (out : OStream) (d : Nat),
    s.toRaw.unparse out d = some (s.unparse out d)
  | .Decl x, out, d => by
    simp [StmtNode.toRaw, RawStmtNode.unparse, StmtNode.unparse, decl_toRaw_unparse x]
  | .AssignStmtNode v e, out, d => by
    simp [StmtNode.toRaw, RawStmtNode.unparse, RawAssignExpNode.unparse, StmtNode.unparse,
      ExpNode.unparse, lval_toRaw_unparse, exp_toRaw_unparse]
  | .PostDecStmtNode v, out, d => by
    simp [StmtNode.toRaw, RawStmtNode.unparse, StmtNode.unparse, lval_toRaw_unparse]
  | .PostIncStmtNode v, out, d => by
    simp [StmtNode.toRaw, RawStmtNode.unparse, StmtNode.unparse, lval_toRaw_unparse]
  | .ReadStmtNode v, out, d => by
    simp [StmtNode.toRaw, RawStmtNode.unparse, StmtNode.unparse, lval_toRaw_unparse]
  | .WriteStmtNode e, out, d => by
    simp [StmtNode.toRaw, RawStmtNode.unparse, StmtNode.unparse, exp_toRaw_unparse]
  | .ReturnStmtNode none, _, _ => rfl
  | .ReturnStmtNode (some e), out, d => by
    simp [StmtNode.toRaw, RawStmtNode.unparse, StmtNode.unparse, exp_toRaw_unparse]
  | .WhileStmtNode c body, out, d => by
    simp [StmtNode.toRaw, RawStmtNode.unparse, StmtNode.unparse, exp_toRaw_unparse,
      body_toRaw_unparse body]
  | .IfStmtNode c body, out, d => by
    simp [StmtNode.toRaw, RawStmtNode.unparse, StmtNode.unparse, exp_toRaw_unparse,
      body_toRaw_unparse body]
  | .IfElseStmtNode c tb fb, out, d => by
    simp [StmtNode.toRaw, RawStmtNode.unparse, StmtNode.unparse, exp_toRaw_unparse,
      body_toRaw_unparse tb, body_toRaw_unparse fb]
  | .CallStmtNode f none, _, _ => rfl
  | .CallStmtNode f (some args), out, d => by
    simp [StmtNode.toRaw, RawStmtNode.unparse, RawCallExpNode.unparse, StmtNode.unparse,
      ExpNode.unparse, args_toRaw_unparse]
theorem body_toRaw_unparse : ∀ (body : List StmtNode) (out : OStream) (d : Nat),
    RawStmtNode.unparseBody (StmtNode.toRawBody body) out d
      = some (StmtNode.unparseBody body out d)
  | [], _, _ => rfl
  | s :: rest, out, d => by
    simp [StmtNode.toRawBody, RawStmtNode.unparseBody, StmtNode.unparseBody,
      stmt_toRaw_unparse s, body_toRaw_unparse rest]
end

mutual
theorem decl_toRaw_wellFormed : ∀ (x : DeclNode), x.toRaw.wellFormed = true
  | .VarDeclNode _ _ => rfl
  | .FormalDeclNode _ => rfl
  | .FnDeclNode t i none body => by
    simp [DeclNode.toRaw, RawDeclNode.wellFormed, body_toRaw_wellFormed body]
  | .FnDeclNode t i (some ps) body => by
    simp [DeclNode.toRaw, RawDeclNode.wellFormed, body_toRaw_wellFormed body,
      params_toRaw_wellFormed]
theorem stmt_toRaw_wellFormed : ∀ (s : StmtNode), s.toRaw.wellFormed = true
  | .Decl x => by simp [StmtNode.toRaw, RawStmtNode.wellFormed, decl_toRaw_wellFormed x]
  | .AssignStmtNode v e => by
    simp [StmtNode.toRaw, RawStmtNode.wellFormed, RawAssignExpNode.wellFormed,
      lval_toRaw_wellFormed, exp_toRaw_wellFormed]
  | .PostDecStmtNode v => by
    simp [StmtNode.toRaw, RawStmtNode.wellFormed, lval_toRaw_wellFormed]
  | .PostIncStmtNode v => by
    simp [StmtNode.toRaw, RawStmtNode.wellFormed, lval_toRaw_wellFormed]
  | .ReadStmtNode v => by
    simp [StmtNode.toRaw, RawStmtNode.wellFormed, lval_toRaw_wellFormed]
  | .WriteStmtNode e => by
    simp [StmtNode.toRaw, RawStmtNode.wellFormed, exp_toRaw_wellFormed]
  | .ReturnStmtNode none => rfl
  | .ReturnStmtNode (some e) => by
    simp [StmtNode.toRaw, RawStmtNode.wellFormed, exp_toRaw_wellFormed]
  | .WhileStmtNode c body => by
    simp [StmtNode.toRaw, RawStmtNode.wellFormed, exp_toRaw_wellFormed,
      body_toRaw_wellFormed body]
  | .IfStmtNode c body => by
    simp [StmtNode.toRaw, RawStmtNode.wellFormed, exp_toRaw_wellFormed,
      body_toRaw_wellFormed body]
  | .IfElseStmtNode c tb fb => by
    simp [StmtNode.toRaw, RawStmtNode.wellFormed, exp_toRaw_wellFormed,
      body_toRaw_wellFormed tb, body_toRaw_wellFormed fb]
  | .CallStmtNode f none => rfl
  | .CallStmtNode f (some args) => by
    simp [StmtNode.toRaw, RawStmtNode.wellFormed, RawCallExpNode.wellFormed,
      args_toRaw_wellFormed]
theorem body_toRaw_wellFormed : ∀ (body : List StmtNode),
    RawStmtNode.wellFormedBody (StmtNode.toRawBody body) = true
  | [] => rfl
  | s :: rest => by
    simp [StmtNode.toRawBody, RawStmtNode.wellFormedBody, stmt_toRaw_wellFormed s,
      body_toRaw_wellFormed rest]
end

theorem globals_toRaw_unparse : ∀ (xs : List DeclNode) (out : OStream) (d : Nat),
    RawProgramNode.unparseGlobals (ProgramNode.toRawGlobals xs) out d
      = some (ProgramNode.unparseGlobals xs out d)
  | [], _, _ => rfl
  | x :: rest, out, d => by
    simp [ProgramNode.toRawGlobals, RawProgramNode.unparseGlobals,
      ProgramNode.unparseGlobals, decl_toRaw_unparse x, globals_toRaw_unparse rest]

theorem globals_toRaw_wellFormed : ∀ (xs : List DeclNode),
    RawProgramNode.wellFormedGlobals (ProgramNode.toRawGlobals xs) = true
  | [] => rfl
  | x :: rest => by
    simp [ProgramNode.toRawGlobals, RawProgramNode.wellFormedGlobals,
      decl_toRaw_wellFormed x, globals_toRaw_wellFormed rest]

theorem litBin_of_isLitBin : ∀ (e : ExpNode), e.isLitBin = true → ∃ a : LitBin, a.toExp = e
  | .IntLitNode n, _ => ⟨.lit n, rfl⟩
  | .AndNode l r, h => by
    simp only [ExpNode.isLitBin, Bool.and_eq_true] at h
    obtain ⟨a, ha⟩ := litBin_of_isLitBin l h.1
    obtain ⟨b, hb⟩ := litBin_of_isLitBin r h.2
    exact ⟨.bin .And a b, by rw [LitBin.toExp, ha, hb]; rfl⟩
  | .DivideNode l r, h => by
    simp only [ExpNode.isLitBin, Bool.and_eq_true] at h
    obtain ⟨a, ha⟩ := litBin_of_isLitBin l h.1
    obtain ⟨b, hb⟩ := litBin_of_isLitBin r h.2
    exact ⟨.bin .Divide a b, by rw [LitBin.toExp, ha, hb]; rfl⟩
  | .EqualsNode l r, h => by
    simp only [ExpNode.isLitBin, Bool.and_eq_true] at h
    obtain ⟨a, ha⟩ := litBin_of_isLitBin l h.1
    obtain ⟨b, hb⟩ := litBin_of_isLitBin r h.2
    exact ⟨.bin .Equals a b, by rw [LitBin.toExp, ha, hb]; rfl⟩
  | .GreaterEqNode l r, h => by
    simp only [ExpNode.isLitBin, Bool.and_eq_true] at h
    obtain ⟨a, ha⟩ := litBin_of_isLitBin l h.1
    obtain ⟨b, hb⟩ := litBin_of_isLitBin r h.2
    exact ⟨.bin .GreaterOrEqual a b, by rw [LitBin.toExp, ha, hb]; rfl⟩
  | .GreaterNode l r, h => by
    simp only [ExpNode.isLitBin, Bool.and_eq_true] at h
    obtain ⟨a, ha⟩ := litBin_of_isLitBin l h.1
    obtain ⟨b, hb⟩ := litBin_of_isLitBin r h.2
    exact ⟨.bin .GreaterThan a b, by rw [LitBin.toExp, ha, hb]; rfl⟩
  | .LessEqNode l r, h => by
    simp only [ExpNode.isLitBin, Bool.and_eq_true] at h
    obtain ⟨a, ha⟩ := litBin_of_isLitBin l h.1
    obtain ⟨b, hb⟩ := litBin_of_isLitBin r h.2
    exact ⟨.bin .LessOrEqual a b, by rw [LitBin.toExp, ha, hb]; rfl⟩
  | .LessNode l r, h => by
    simp only [ExpNode.isLitBin, Bool.and_eq_true] at h
    obtain ⟨a, ha⟩ := litBin_of_isLitBin l h.1
    obtain ⟨b, hb⟩ := litBin_of_isLitBin r h.2
    exact ⟨.bin .LessThan a b, by rw [LitBin.toExp, ha, hb]; rfl⟩
  | .MinusNode l r, h => by
    simp only [ExpNode.isLitBin, Bool.and_eq_true] at h
    obtain ⟨a, ha⟩ := litBin_of_isLitBin l h.1
    obtain ⟨b, hb⟩ := litBin_of_isLitBin r h.2
    exact ⟨.bin .Subtract a b, by rw [LitBin.toExp, ha, hb]; rfl⟩
  | .NotEqualsNode l r, h => by
    simp only [ExpNode.isLitBin, Bool.and_eq_true] at h
    obtain ⟨a, ha⟩ := litBin_of_isLitBin l h.1
    obtain ⟨b, hb⟩ := litBin_of_isLitBin r h.2
    exact ⟨.bin .NotEquals a b, by rw [LitBin.toExp, ha, hb]; rfl⟩
  | .OrNode l r, h => by
    simp only [ExpNode.isLitBin, Bool.and_eq_true] at h
    obtain ⟨a, ha⟩ := litBin_of_isLitBin l h.1
    obtain ⟨b, hb⟩ := litBin_of_isLitBin r h.2
    exact ⟨.bin .Or a b, by rw [LitBin.toExp, ha, hb]; rfl⟩
  | .PlusNode l r, h => by
    simp only [ExpNode.isLitBin, Bool.and_eq_true] at h
    obtain ⟨a, ha⟩ := litBin_of_isLitBin l h.1
    obtain ⟨b, hb⟩ := litBin_of_isLitBin r h.2
    exact ⟨.bin .Add a b, by rw [LitBin.toExp, ha, hb]; rfl⟩
  | .TimesNode l r, h => by
    simp only [ExpNode.isLitBin, Bool.and_eq_true] at h
    obtain ⟨a, ha⟩ := litBin_of_isLitBin l h.1
    obtain ⟨b, hb⟩ := litBin_of_isLitBin r h.2
    exact ⟨.bin .Multiply a b, by rw [LitBin.toExp, ha, hb]; rfl⟩
  | .TrueNode, h => by simp [ExpNode.isLitBin] at h
  | .FalseNode, h => by simp [ExpNode.isLitBin] at h
  | .StrLitNode _, h => by simp [ExpNode.isLitBin] at h
  | .ShortLitNode _, h => by simp [ExpNode.isLitBin] at h
  | .NegNode _, h => by simp [ExpNode.isLitBin] at h
  | .NotNode _, h => by simp [ExpNode.isLitBin] at h
  | .CallExpNode _ _, h => by simp [ExpNode.isLitBin] at h
  | .LVal _, h => by simp [ExpNode.isLitBin] at h
  | .AssignExpNode _ _, h => by simp [ExpNode.isLitBin] at h

/-- C16: on expressions built only from integer literals and the twelve
binary operators the depth-0 text determines the tree: two such expressions
with the same text are the same expression, with the same operators, the same
nesting and the same literal values, negative ones included. -/
theorem litBin_text_injective (e₁ e₂ : ExpNode) (h₁ : e₁.isLitBin = true)
    (h₂ : e₂.isLitBin = true) (h : e₁.text 0 = e₂.text 0) : e₁ = e₂ := by
  obtain ⟨a, ha⟩ := litBin_of_isLitBin e₁ h₁
  obtain ⟨b, hb⟩ := litBin_of_isLitBin e₂ h₂
  subst ha
  subst hb
  have hc : a.chars ++ [] = b.chars ++ [] := by
    rw [List.append_nil, List.append_nil, ← litBin_chars a, ← litBin_chars b, h]
  rw [(litBin_split a b [] [] rfl rfl hc).1]

/-- Witness of C16: the expression `(1 - -1)`; the two ways of nesting
`1 - 2 - 3` have different texts. -/
theorem litBin_text_injective_witness :
    (ExpNode.MinusNode (.IntLitNode 1) (.IntLitNode (-1))).isLitBin = true
      ∧ (ExpNode.MinusNode (.IntLitNode 1) (.IntLitNode (-1))).text 0 = "(1 - -1)"
      ∧ (ExpNode.MinusNode (.IntLitNode 1) (.IntLitNode (-1))).text 0
          = (ExpNode.MinusNode (.IntLitNode 1) (.IntLitNode (-1))).text 0
      ∧ ExpNode.MinusNode (.IntLitNode 1) (.IntLitNode (-1))
          = ExpNode.MinusNode (.IntLitNode 1) (.IntLitNode (-1))
      ∧ (ExpNode.MinusNode (.MinusNode (.IntLitNode 1) (.IntLitNode 2)) (.IntLitNode 3)).text 0
          ≠ (ExpNode.MinusNode (.IntLitNode 1)
              (.MinusNode (.IntLitNode 2) (.IntLitNode 3))).text 0 :=
  ⟨by decide, by decide, rfl,
    litBin_text_injective (.MinusNode (.IntLitNode 1) (.IntLitNode (-1)))
      (.MinusNode (.IntLitNode 1) (.IntLitNode (-1))) (by decide) (by decide) rfl,
    by decide⟩

/-- C11, as stated, fails: the programs `int f() { report neg; }` with the
operand `true` and with the operand `false` under the Negate node are
different trees and have the same text at depth 0, and so have two programs
that call `g` with a null and with an empty argument list. -/
theorem render_round_trip_counterexample :
    (ProgramNode.mk [.FnDeclNode .IntTypeNode ⟨"f"⟩ none
          [.WriteStmtNode (.NegNode .TrueNode)]]).text 0
        = (ProgramNode.mk [.FnDeclNode .IntTypeNode ⟨"f"⟩ none
          [.WriteStmtNode (.NegNode .FalseNode)]]).text 0
      ∧ ProgramNode.mk [.FnDeclNode .IntTypeNode ⟨"f"⟩ none
          [.WriteStmtNode (.NegNode .TrueNode)]]
        ≠ ProgramNode.mk [.FnDeclNode .IntTypeNode ⟨"f"⟩ none
          [.WriteStmtNode (.NegNode .FalseNode)]]
      ∧ (ProgramNode.mk [.FnDeclNode .IntTypeNode ⟨"f"⟩ none
          [.CallStmtNode ⟨"g"⟩ none]]).text 0
        = (ProgramNode.mk [.FnDeclNode .IntTypeNode ⟨"f"⟩ none
          [.CallStmtNode ⟨"g"⟩ (some [])]]).text 0
      ∧ ProgramNode.mk [.FnDeclNode .IntTypeNode ⟨"f"⟩ none [.CallStmtNode ⟨"g"⟩ none]]
        ≠ ProgramNode.mk [.FnDeclNode .IntTypeNode ⟨"f"⟩ none
          [.CallStmtNode ⟨"g"⟩ (some [])]] := by
  refine ⟨by decide, by simp, by decide, by simp⟩

/-- C11, amended: rendering loses structure. A Negate or LogicalNot node is
written without its operand and a call with a null argument list is written
like a call with an empty one, so two programs that differ only in the operand
of a unary operator, or only in a null against an empty argument list, have
the same text at depth 0: the text of a program is not an injective function
of the tree, and no function from text to trees inverts it on all trees. -/
theorem render_not_injective (e e' : ExpNode) (f : IDNode) (t : TypeNode) (n : IDNode)
    (ps : Option (List FormalDeclNode)) (before after : List StmtNode)
    (above below : List DeclNode) (d : Nat) :
    ((ExpNode.NegNode e).text d = (ExpNode.NegNode e').text d
        ∧ (ExpNode.NotNode e).text d = (ExpNode.NotNode e').text d
        ∧ (ExpNode.CallExpNode f none).text d = (ExpNode.CallExpNode f (some [])).text d)
      ∧ ((ProgramNode.mk (above ++ .FnDeclNode t n ps
            (before ++ .WriteStmtNode (.NegNode e) :: after) :: below)).text 0
          = (ProgramNode.mk (above ++ .FnDeclNode t n ps
            (before ++ .WriteStmtNode (.NegNode e') :: after) :: below)).text 0
        ∧ (ProgramNode.mk (above ++ .FnDeclNode t n ps
            (before ++ .WriteStmtNode (.NotNode e) :: after) :: below)).text 0
          = (ProgramNode.mk (above ++ .FnDeclNode t n ps
            (before ++ .WriteStmtNode (.NotNode e') :: after) :: below)).text 0
        ∧ (ProgramNode.mk (above ++ .FnDeclNode t n ps
            (before ++ .CallStmtNode f none :: after) :: below)).text 0
          = (ProgramNode.mk (above ++ .FnDeclNode t n ps
            (before ++ .CallStmtNode f (some []) :: after) :: below)).text 0)
      ∧ ¬ Function.Injective (fun p : ProgramNode => p.text 0)
      ∧ ¬ ∃ parse : String → ProgramNode, ∀ p : ProgramNode, parse (p.text 0) = p := by
  have hneg : ∀ k, (StmtNode.WriteStmtNode (.NegNode e)).text k
      = (StmtNode.WriteStmtNode (.NegNode e')).text k := fun k => rfl
  have hnot : ∀ k, (StmtNode.WriteStmtNode (.NotNode e)).text k
      = (StmtNode.WriteStmtNode (.NotNode e')).text k := fun k => rfl
  have hcall : ∀ k, (StmtNode.CallStmtNode f none).text k
      = (StmtNode.CallStmtNode f (some [])).text k := fun k => rfl
  have hpair : (fun p : ProgramNode => p.text 0)
        (ProgramNode.mk [.FnDeclNode .IntTypeNode ⟨"f"⟩ none
          [.WriteStmtNode (.NegNode .TrueNode)]])
      = (fun p : ProgramNode => p.text 0)
        (ProgramNode.mk [.FnDeclNode .IntTypeNode ⟨"f"⟩ none
          [.WriteStmtNode (.NegNode .FalseNode)]]) := by decide
  have hne : ProgramNode.mk [.FnDeclNode .IntTypeNode ⟨"f"⟩ none
          [.WriteStmtNode (.NegNode .TrueNode)]]
      ≠ ProgramNode.mk [.FnDeclNode .IntTypeNode ⟨"f"⟩ none
          [.WriteStmtNode (.NegNode .FalseNode)]] := by simp
  refine ⟨⟨rfl, rfl, rfl⟩, ⟨?_, ?_, ?_⟩, ?_, ?_⟩
  · simp only [ProgramNode.text, ProgramNode.unparse, unparseGlobals_eq, List.map_append,
      List.map_cons, DeclNode.text, fnDecl_unparse, hneg]
  · simp only [ProgramNode.text, ProgramNode.unparse, unparseGlobals_eq, List.map_append,
      List.map_cons, DeclNode.text, fnDecl_unparse, hnot]
  · simp only [ProgramNode.text, ProgramNode.unparse, unparseGlobals_eq, List.map_append,
      List.map_cons, DeclNode.text, fnDecl_unparse, hcall]
  · intro hinj
    exact hne (hinj hpair)
  · rintro ⟨parse, hparse⟩
    apply hne
    rw [← hparse (ProgramNode.mk [.FnDeclNode .IntTypeNode ⟨"f"⟩ none
          [.WriteStmtNode (.NegNode .TrueNode)]]),
      ← hparse (ProgramNode.mk [.FnDeclNode .IntTypeNode ⟨"f"⟩ none
          [.WriteStmtNode (.NegNode .FalseNode)]])]
    exact congrArg parse hpair

/-- C7, at the failing input: a return statement built without an expression,
by `ReturnStmtNode(Position*)`, does not get `return;`. The constructor leaves
`expression` as its storage was and `unparse` reads it: with the address of
the literal `42` there the text is `return 42; `, and with a value that is the
address of no node the call through it has no result, at every depth. Only
when the storage is null is the text `d` tabs and `return; `. The constructor
with the expression argument behaves as described: for a null pointer `d` tabs
and `return; `, for an expression `e` the text `d` tabs, `return`, one space,
the depth-0 text of `e` and `; `. -/
theorem returnStmt_constructor_leaves_expression_unset (e : ExpNode) (d : Nat)
    (out : OStream) :
    (RawStmtNode.newReturnStmtNode (.node (.IntLitNode 42))).unparse "" 0
        = some ("return 42;" ++ " \n")
      ∧ (RawStmtNode.newReturnStmtNode .wild).unparse out d = none
      ∧ (RawStmtNode.newReturnStmtNode (.node e.toRaw)).unparse out d
          = some (out ++ tabs d ++ "return" ++ " " ++ e.text 0 ++ ";" ++ " \n")
      ∧ (RawStmtNode.newReturnStmtNode .null).unparse out d
          = some (out ++ tabs d ++ "return;" ++ " \n")
      ∧ (RawStmtNode.newReturnStmtNodeWithExpression none).unparse out d
          = some (out ++ tabs d ++ "return;" ++ " \n")
      ∧ (RawStmtNode.newReturnStmtNodeWithExpression (some e.toRaw)).unparse out d
          = some (out ++ tabs d ++ "return" ++ " " ++ e.text 0 ++ ";" ++ " \n") := by
  have hnull : (RawStmtNode.ReturnStmtNode .null).unparse out d
      = some (out ++ tabs d ++ "return;" ++ " \n") := by
    rw [show RawStmtNode.ReturnStmtNode .null = (StmtNode.ReturnStmtNode none).toRaw from rfl,
      stmt_toRaw_unparse, (returnStmt_unparse_null_or_set e d out).1]
  have hnode : (RawStmtNode.ReturnStmtNode (.node e.toRaw)).unparse out d
      = some (out ++ tabs d ++ "return" ++ " " ++ e.text 0 ++ ";" ++ " \n") := by
    rw [show RawStmtNode.ReturnStmtNode (.node e.toRaw)
        = (StmtNode.ReturnStmtNode (some e)).toRaw from rfl,
      stmt_toRaw_unparse, (returnStmt_unparse_null_or_set e d out).2.1]
  exact ⟨by decide, rfl, hnode, hnull, hnull, hnode⟩

/-- C8, at the failing input: a call built with no argument list, by
`CallExpNode(Position*, IDNode*)`, is not rendered like the call with an empty
list. The constructor leaves `arguments` as its storage was and `unparse`
reads it: with a value that is the address of no list the loop over it has no
result, at every depth, and with the address of a list holding the literal
`42` the text is `f(42)`; the call with the empty list gives `d` tabs, the name
and `()`. Only when the storage is null are the two texts the same. The
constructor with the list argument gives `d` tabs, the name and `()` for a
null list as for an empty one. -/
theorem callExp_constructor_leaves_arguments_unset (f : IDNode) (d : Nat) (out : OStream) :
    (RawExpNode.newCallExpNode (some f) .wild).unparse out d = none
      ∧ (RawExpNode.newCallExpNodeWithArguments (some f) (some [])).unparse out d
          = some (out ++ tabs d ++ f.name ++ "()")
      ∧ (RawExpNode.newCallExpNode (some f) .wild).unparse out d
          ≠ (RawExpNode.newCallExpNodeWithArguments (some f) (some [])).unparse out d
      ∧ (RawExpNode.newCallExpNode (some ⟨"f"⟩) (.node [some (.IntLitNode 42)])).unparse "" 0
          = some "f(42)"
      ∧ (RawExpNode.newCallExpNodeWithArguments (some ⟨"f"⟩) (some [])).unparse "" 0
          = some "f()"
      ∧ (RawExpNode.newCallExpNode (some f) .null).unparse out d
          = some (out ++ tabs d ++ f.name ++ "()")
      ∧ (RawExpNode.newCallExpNodeWithArguments (some f) none).unparse out d
          = some (out ++ tabs d ++ f.name ++ "()") := by
  have hnull : (RawExpNode.CallExpNode (.mk (some f) .null)).unparse out d
      = some (out ++ tabs d ++ f.name ++ "()") := by
    rw [show RawExpNode.CallExpNode (.mk (some f) .null) = (ExpNode.CallExpNode f none).toRaw
        from rfl,
      exp_toRaw_unparse, (callExp_unparse_null_or_empty f d out).1]
  have hempty : (RawExpNode.CallExpNode (.mk (some f) (.node []))).unparse out d
      = some (out ++ tabs d ++ f.name ++ "()") := by
    rw [show RawExpNode.CallExpNode (.mk (some f) (.node []))
        = (ExpNode.CallExpNode f (some [])).toRaw from rfl,
      exp_toRaw_unparse, (callExp_unparse_null_or_empty f d out).2.1]
  have hwild : (RawExpNode.newCallExpNode (some f) .wild).unparse out d = none := rfl
  refine ⟨hwild, hempty, ?_, by decide, by decide, hnull, hnull⟩
  rw [hwild]
  exact fun h => Option.noConfusion (h.trans hempty)

/-- C14, at the failing input: rendering has no result on a tree with every
required child present whose optional child was left out through the
constructor made for that. In `int f() { return; }` the return statement is
built by `ReturnStmtNode(Position*)`, in `int f() { report g(); }` the call by
`CallExpNode(Position*, IDNode*)`; neither constructor sets the optional
field, and when the storage holds the address of no node rendering fails at
every depth. With the storage null the two programs have the texts expected,
and every tree whose optional fields are null or set, which is every tree of
the model, renders to its text. -/
theorem unparse_fails_on_unset_optional_child (q : ProgramNode) (d : Nat) (out : OStream) :
    (RawProgramNode.functionOf (RawStmtNode.newReturnStmtNode .wild)).unparse out d = none
      ∧ (RawProgramNode.functionOf
          (.WriteStmtNode (some (RawExpNode.newCallExpNode (some ⟨"g"⟩) .wild)))).unparse
            out d = none
      ∧ (RawProgramNode.functionOf (RawStmtNode.newReturnStmtNode .null)).unparse "" 0
          = some "int f() \x7b\n\treturn; \n\n\x7d\n"
      ∧ (RawProgramNode.functionOf
          (.WriteStmtNode (some (RawExpNode.newCallExpNode (some ⟨"g"⟩) .null)))).unparse "" 0
          = some "int f() \x7b\n\treport g(); \n\n\x7d\n"
      ∧ q.toRaw.unparse out d = some (q.unparse out d) := by
  refine ⟨?_, ?_, by decide, by decide, globals_toRaw_unparse q.myGlobals out d⟩
  · simp [RawProgramNode.functionOf, RawProgramNode.unparse, RawProgramNode.unparseGlobals,
      RawDeclNode.unparse, RawStmtNode.unparseBody, RawStmtNode.newReturnStmtNode,
      RawStmtNode.unparse]
  · simp [RawProgramNode.functionOf, RawProgramNode.unparse, RawProgramNode.unparseGlobals,
      RawDeclNode.unparse, RawStmtNode.unparseBody, RawExpNode.newCallExpNode,
      RawStmtNode.unparse, RawExpNode.unparse, RawCallExpNode.unparse]

/-- C15, at the failing input: the constructors of a variable declaration and
of a formal parameter abort on a null type or a null identifier, but both
constructors of a function declaration return a node when the type and the
identifier are null, and rendering that node takes the absent-child path. -/
theorem fnDecl_constructor_accepts_null (type : Option TypeNode) (id : Option IDNode)
    (paramIn : Option (List (Option RawFormalDeclNode)))
    (funcBody : Option (List (Option RawStmtNode))) (d : Nat) (out : OStream) :
    (RawDeclNode.newVarDeclNode none id = none
        ∧ RawDeclNode.newVarDeclNode type none = none
        ∧ RawDeclNode.newFormalDeclNode none id = none
        ∧ RawDeclNode.newFormalDeclNode type none = none)
      ∧ (RawDeclNode.newFnDeclNode none none funcBody
          = some (.FnDeclNode none none none funcBody)
        ∧ RawDeclNode.newFnDeclNodeWithParams none none paramIn funcBody
          = some (.FnDeclNode none none paramIn funcBody)
        ∧ RawDeclNode.newFnDeclNode none id funcBody = some (.FnDeclNode none id none funcBody)
        ∧ RawDeclNode.newFnDeclNode type none funcBody
          = some (.FnDeclNode type none none funcBody))
      ∧ ((RawDeclNode.FnDeclNode none id paramIn funcBody).unparse out d = none
        ∧ (RawDeclNode.FnDeclNode type none paramIn funcBody).unparse out d = none) := by
  refine ⟨⟨?_, ?_, ?_, ?_⟩, ⟨rfl, rfl, rfl, rfl⟩, ?_, ?_⟩
  · cases id <;> rfl
  · cases type <;> rfl
  · cases id <;> rfl
  · cases type <;> rfl
  · cases id <;> cases paramIn <;> cases funcBody <;> rfl
  · cases type <;> cases paramIn <;> cases funcBody <;> rfl

/-- C21: a short literal built from the integer `v` stores `v` narrowed to 16
bits and writes the stored value: the decimal numeral of `v` wrapped modulo
`2^16` into `-32768 .. 32767`, which for `w` within that range is the numeral
of `w` itself; built from 70000 it writes `4464`. An int literal built from
`v` writes the numeral of `v` unchanged. -/
theorem shortLit_narrows_to_sixteen_bits (v w : Int) (d : Nat) (out : OStream)
    (hlo : -32768 ≤ w) (hhi : w ≤ 32767) :
    (ExpNode.newShortLitNode w).unparse out d = out ++ tabs d ++ toString w
      ∧ (ExpNode.newShortLitNode v = .ShortLitNode (toShort v)
        ∧ (ExpNode.newShortLitNode v).unparse out d = out ++ tabs d ++ toString (toShort v)
        ∧ -32768 ≤ toShort v ∧ toShort v ≤ 32767 ∧ (v - toShort v) % 65536 = 0)
      ∧ ((ExpNode.newShortLitNode 70000).text 0 = "4464"
        ∧ (ExpNode.newShortLitNode (-32769)).text 0 = "32767"
        ∧ (ExpNode.newIntLitNode 70000).text 0 = "70000")
      ∧ (ExpNode.newIntLitNode v).unparse out d = out ++ tabs d ++ toString v := by
  have hw : toShort w = w := by
    unfold toShort
    omega
  refine ⟨?_, ⟨rfl, ?_, ?_, ?_, ?_⟩, ⟨by decide, by decide, by decide⟩, ?_⟩
  · simp [ExpNode.newShortLitNode, ExpNode.unparse, doIndent_eq, hw]
  · simp [ExpNode.newShortLitNode, ExpNode.unparse, doIndent_eq]
  · unfold toShort
    omega
  · unfold toShort
    omega
  · unfold toShort
    omega
  · simp [ExpNode.newIntLitNode, ExpNode.unparse, doIndent_eq]

/-- Witness of C21: the short literal built from `-5` at depth 1. -/
theorem shortLit_narrows_to_sixteen_bits_witness :
    (-32768 : Int) ≤ -5 ∧ (-5 : Int) ≤ 32767
      ∧ (ExpNode.newShortLitNode (-5)).unparse "" 1 = "" ++ tabs 1 ++ toString (-5 : Int)
      ∧ (ExpNode.newShortLitNode (-5)).unparse "" 1 = "\t-5" :=
  ⟨by decide, by decide,
    (shortLit_narrows_to_sixteen_bits 70000 (-5) 1 "" (by decide) (by decide)).1,
    by decide⟩

/-- C22: a function declaration whose parameter list is null, which is what
the constructor without a parameter list builds, and one whose parameter list
is present but empty are different trees and write the same text at any
depth, with `()` right after the name. -/
theorem fnDecl_null_and_empty_parameters_alike (t : TypeNode) (n : IDNode)
    (body : List StmtNode) (d : Nat) (out : OStream) :
    (DeclNode.FnDeclNode t n none body).unparse out d
        = (DeclNode.FnDeclNode t n (some []) body).unparse out d
      ∧ (DeclNode.FnDeclNode t n none body).unparse out d
        = out ++ tabs d ++ t.keyword ++ " " ++ n.name ++ "()" ++ " \x7b\n"
            ++ String.join (body.map fun s => s.text (d + 1)) ++ "\n\x7d\n"
      ∧ DeclNode.FnDeclNode t n none body ≠ DeclNode.FnDeclNode t n (some []) body
      ∧ RawDeclNode.newFnDeclNode (some t) (some n) (some (StmtNode.toRawBody body))
        = some (DeclNode.FnDeclNode t n none body).toRaw
      ∧ RawDeclNode.newFnDeclNodeWithParams (some t) (some n) (some [])
          (some (StmtNode.toRawBody body))
        = some (DeclNode.FnDeclNode t n (some []) body).toRaw := by
  have h : ∀ ps : Option (List FormalDeclNode), ps.getD [] = [] →
      (DeclNode.FnDeclNode t n ps body).unparse out d
        = out ++ tabs d ++ t.keyword ++ " " ++ n.name ++ "()" ++ " \x7b\n"
            ++ String.join (body.map fun s => s.text (d + 1)) ++ "\n\x7d\n" := by
    intro ps hps
    have hp : paramsText ps = "" := by
      unfold paramsText
      rw [hps]
      rfl
    rw [fnDecl_unparse, hp]
    simp only [String.append_assoc, String.empty_append]
    rw [← String.append_assoc "(" ") \x7b\n", ← String.append_assoc "()" " \x7b\n"]
    rfl
  refine ⟨(h none rfl).trans (h (some []) rfl).symm, h none rfl, by simp, ?_, ?_⟩
  · simp [RawDeclNode.newFnDeclNode, DeclNode.toRaw]
  · simp [RawDeclNode.newFnDeclNodeWithParams, DeclNode.toRaw, FormalDeclNode.toRawParams]

end cminusminus
